import Mathlib

/-!
# USART2 interrupt-driven byte transport: circular queues and interrupt handler

A shallow embedding of `USART2_IT.c` / `USART2_IT.h`.

* `uint16_t` fields are natural numbers; every assignment to such a field is
  reduced modulo `2^16` where the assigned expression can leave the range.
* `uint8_t` values are natural numbers; the conversion of an argument to the
  `uint8_t` parameter of `enqueue` is the reduction modulo `2^8`.
* The array `q[QUEUE_SIZE]` is a map from indices to bytes.  Only the indices
  below `QUEUE_SIZE` are cells of the C array; statements about array
  accesses carry the index-range conditions `pRD < QUEUE_SIZE` and
  `pWR < QUEUE_SIZE`.
* `int` return values are natural numbers (`0` or `1`).
* A `uint8_t *data` output parameter is passed in and returned: the second
  component of the result of `dequeue` is the content of `*data` after the
  call.
* The flags and the receive register of the peripheral are arguments of one
  invocation of the handler (`UsartIn`); what the invocation writes to the
  outside is returned (`IrqOut`).  The TXE interrupt-enable bit is part of the
  system state.
* The loop of `putcharC` is embedded as one loop attempt (`putcharC_attempt`)
  and as a run of at most `fuel` attempts with no interrupt in between
  (`putcharC`); `putcharC_irq` is the run with one handler invocation after
  every failed attempt.  The function is embedded from its text at the end of
  `USART2_IT.c`, where the comment opened before it has no closing mark.
* `getcharC` can end without executing a `return` statement; its result type
  `GetResult` tells the two endings apart.
-/

namespace USART2

/-! ## Data model (`USART2_IT.h`) -/

/-- Number of cells of the queue array: `#define QUEUE_SIZE 512`. -/
def QUEUE_SIZE : Nat := 512

/-- Number of values of a `uint16_t`. -/
def U16 : Nat := 65536

/-- Number of values of a `uint8_t`. -/
def U8 : Nat := 256

/-- The struct `Receive_Transmit_Queue`: read index, write index, occupancy
counter and the byte array. -/
structure RTQueue where
  pRD : Nat
  pWR : Nat
  sizeRecieve : Nat
  q : Nat → Nat

/-- Array assignment `q[i] = v`. -/
def store (q : Nat → Nat) (i v : Nat) : Nat → Nat :=
  fun j => if j = i then v else q j

/-! ## Helper functions (`USART2_IT.c`) -/

/-- The function `QueueFull`: `return (((pWR + 1) % QUEUE_SIZE) == pRD);`. -/
def QueueFull (RTque : RTQueue) : Nat :=
  if (RTque.pWR + 1) % QUEUE_SIZE = RTque.pRD then 1 else 0

/-- The function `QueueEmpty`: `return (pRD == pWR);`. -/
def QueueEmpty (RTque : RTQueue) : Nat :=
  if RTque.pRD = RTque.pWR then 1 else 0

/-- The function `enqueue`: the pair of the return value and the queue after
the call. -/
def enqueue (RTque : RTQueue) (data : Nat) : Nat × RTQueue :=
  if QueueFull RTque ≠ 0 then
    (0, RTque)
  else
    (1,
      { pRD := RTque.pRD
        pWR := if RTque.pWR + 1 = QUEUE_SIZE then 0 else (RTque.pWR + 1) % U16
        sizeRecieve := (RTque.sizeRecieve + 1) % U16
        q := store RTque.q RTque.pWR (data % U8) })

/-- The function `dequeue`: the return value, the content of `*data` after
the call (the argument `data` is its content before the call) and the queue
after the call.  `sizeRecieve - 1` is computed in `int` and converted back to
`uint16_t`. -/
def dequeue (RTque : RTQueue) (data : Nat) : Nat × Nat × RTQueue :=
  if QueueEmpty RTque ≠ 0 then
    (0, data, RTque)
  else
    (1, RTque.q RTque.pRD,
      { pRD := if RTque.pRD + 1 = QUEUE_SIZE then 0 else (RTque.pRD + 1) % U16
        pWR := RTque.pWR
        sizeRecieve := (RTque.sizeRecieve + (U16 - 1)) % U16
        q := RTque.q })

/-! ## Drivers: sequences of calls -/

/-- The value of a zero-initialised global `RTQueue`. -/
def initQueue : RTQueue :=
  { pRD := 0, pWR := 0, sizeRecieve := 0, q := fun _ => 0 }

/-- Calls `enqueue` once for every byte of the list, in order; returns the
list of return values and the final queue. -/
def enqueueAll (RTque : RTQueue) : List Nat → List Nat × RTQueue
  | [] => ([], RTque)
  | b :: bs =>
    ((enqueue RTque b).1 :: (enqueueAll (enqueue RTque b).2 bs).1,
      (enqueueAll (enqueue RTque b).2 bs).2)

/-- Calls `dequeue` `k` times, each with a fresh output byte holding `0`;
returns the list of (return value, output byte) pairs and the final queue. -/
def dequeueN (RTque : RTQueue) : Nat → List (Nat × Nat) × RTQueue
  | 0 => ([], RTque)
  | k + 1 =>
    (((dequeue RTque 0).1, (dequeue RTque 0).2.1) :: (dequeueN (dequeue RTque 0).2.2 k).1,
      (dequeueN (dequeue RTque 0).2.2 k).2)

/-- A queue whose counter holds the largest `uint16_t` value although the
indices describe an empty queue. -/
def counterMaxQueue : RTQueue :=
  { pRD := 0, pWR := 0, sizeRecieve := 65535, q := fun _ => 0 }

/-- A queue holding one byte (indices 0 and 1) whose counter holds 0. -/
def counterZeroQueue : RTQueue :=
  { pRD := 0, pWR := 1, sizeRecieve := 0, q := fun _ => 0 }

/-- A full queue: the write index is one cell behind the read index. -/
def fullQueue : RTQueue :=
  { pRD := 3, pWR := 2, sizeRecieve := 511, q := fun j => j % 256 }

/-- A queue holding the two bytes 65, 66 in the last two cells of the array,
with the write index wrapped to 0. -/
def wrapQueue : RTQueue :=
  { pRD := 510, pWR := 0, sizeRecieve := 2,
    q := fun j => if j = 510 then 65 else if j = 511 then 66 else 0 }

/-! ## Abstraction: the bytes held by a queue -/

/-- Both indices are indices of the array `q[QUEUE_SIZE]`. -/
def InRange (R : RTQueue) : Prop :=
  R.pRD < QUEUE_SIZE ∧ R.pWR < QUEUE_SIZE

/-- Number of cells from the read index up to the write index, going round
the array. -/
def occupancy (R : RTQueue) : Nat :=
  (R.pWR + QUEUE_SIZE - R.pRD) % QUEUE_SIZE

/-- The bytes in the cells from the read index up to the write index, oldest
first. -/
def contents (R : RTQueue) : List Nat :=
  (List.range (occupancy R)).map fun i => R.q ((R.pRD + i) % QUEUE_SIZE)

/-- One call on a queue: `enqueue` with a byte, or `dequeue`. -/
inductive QueueCall where
  | enq (data : Nat)
  | deq

/-- Performs one call; returns its return value and the queue after it.  The
output byte of a `dequeue` is a fresh byte holding `0`. -/
def QueueCall.perform (c : QueueCall) (R : RTQueue) : Nat × RTQueue :=
  match c with
  | .enq d => enqueue R d
  | .deq => ((dequeue R 0).1, (dequeue R 0).2.2)

/-- The queue after a sequence of calls. -/
def runCalls (R : RTQueue) : List QueueCall → RTQueue
  | [] => R
  | c :: cs => runCalls (c.perform R).2 cs

/-- Number of `enqueue` calls of the sequence that returned 1. -/
def enqueuesOk (R : RTQueue) : List QueueCall → Nat
  | [] => 0
  | .enq d :: cs =>
    (if (enqueue R d).1 = 1 then 1 else 0) + enqueuesOk (enqueue R d).2 cs
  | .deq :: cs => enqueuesOk (dequeue R 0).2.2 cs

/-- Number of `dequeue` calls of the sequence that returned 1. -/
def dequeuesOk (R : RTQueue) : List QueueCall → Nat
  | [] => 0
  | .enq d :: cs => dequeuesOk (enqueue R d).2 cs
  | .deq :: cs =>
    (if (dequeue R 0).1 = 1 then 1 else 0) + dequeuesOk (dequeue R 0).2.2 cs

/-- An empty queue whose indices both stand at cell 510, two cells before the
end of the array. -/
def emptyAt510 : RTQueue :=
  { pRD := 510, pWR := 510, sizeRecieve := 0, q := fun _ => 0 }

/-! ## System state and interrupt handler (`USART2_IT.c`) -/

/-- What one invocation of the handler reads from the peripheral:
`LL_USART_IsActiveFlag_RXNE`, `LL_USART_ReceiveData8` and
`LL_USART_IsActiveFlag_TXE`. -/
structure UsartIn where
  RXNE : Bool
  RDR : Nat
  TXE : Bool

/-- The globals of `USART2_IT.c` together with the TXE interrupt-enable bit,
which `LL_USART_IsEnabledIT_TXE` reads and `LL_USART_EnableIT_TXE` /
`LL_USART_DisableIT_TXE` set and clear. -/
structure Sys where
  RX_Buffer : RTQueue
  TX_Buffer : RTQueue
  TxPrimed : Nat
  RxOverflow : Nat
  TXEIE : Bool

/-- What one invocation of the handler writes to the outside: whether
`EXTI1_IRQn` was written to `NVIC->STIR`, and the byte passed to
`LL_USART_TransmitData8`, if any. -/
structure IrqOut where
  STIR : Bool
  TDR : Option Nat

/-- First `if` of `USART2_IRQHandler` (receive register not empty): the state
after it and whether `NVIC->STIR` was written. -/
def rxPath (hw : UsartIn) (s : Sys) : Sys × Bool :=
  if hw.RXNE then
    let data := hw.RDR &&& 0xFF
    let r := enqueue s.RX_Buffer data
    let s1 : Sys :=
      { s with
        RX_Buffer := r.2
        RxOverflow := if r.1 = 0 then 1 else s.RxOverflow }
    (s1, decide (11 ≤ s1.RX_Buffer.sizeRecieve))
  else
    (s, false)

/-- Second `if` of `USART2_IRQHandler` (transmit register empty and TXE
interrupt enabled): the state after it and the byte written to the transmit
register, if any. -/
def txPath (hw : UsartIn) (s : Sys) : Sys × Option Nat :=
  if hw.TXE && s.TXEIE then
    let r := dequeue s.TX_Buffer 0
    if r.1 ≠ 0 then
      ({ s with TX_Buffer := r.2.2 }, some r.2.1)
    else
      ({ s with TX_Buffer := r.2.2, TXEIE := false, TxPrimed := 0 }, none)
  else
    (s, none)

/-- The function `USART2_IRQHandler`: receive path, then transmit path. -/
def USART2_IRQHandler (hw : UsartIn) (s : Sys) : Sys × IrqOut :=
  ((txPath hw (rxPath hw s).1).1,
    { STIR := (rxPath hw s).2, TDR := (txPath hw (rxPath hw s).1).2 })

/-- System state at start-up: zero-initialised globals, TXE interrupt
disabled. -/
def initSys : Sys :=
  { RX_Buffer := initQueue, TX_Buffer := initQueue, TxPrimed := 0,
    RxOverflow := 0, TXEIE := false }

/-! ## Foreground functions (`USART2_IT.c`) -/

/-- How a call of `getcharC` ends: with `return data;`, or by reaching the
closing brace of the function, where no `return` statement is executed and no
value is handed to the caller. -/
inductive GetResult where
  | value (v : Nat)
  | noReturn

/-- The function `getcharC`: `while (dequeue(&RX_Buffer, &data)) {return data;}`.
The loop condition is evaluated once: when `dequeue` returns non-zero the body
returns, when it returns zero the loop is left and the function ends.  The
local `data` is a fresh byte holding `0`. -/
def getcharC (s : Sys) : GetResult × Sys :=
  let r := dequeue s.RX_Buffer 0
  if r.1 ≠ 0 then
    (GetResult.value r.2.1, { s with RX_Buffer := r.2.2 })
  else
    (GetResult.noReturn, { s with RX_Buffer := r.2.2 })

/-- Conversion of an `int` argument to `uint8_t`. -/
def toU8 (c : Int) : Nat :=
  (c % 256).toNat

/-- One evaluation of the loop condition of `putcharC`,
`!enqueue(&TX_Buffer, c)`, followed by the loop body when the condition is
true.  The first component tells whether the loop goes on. -/
def putcharC_attempt (c : Int) (s : Sys) : Bool × Sys :=
  let r := enqueue s.TX_Buffer (toU8 c)
  if r.1 = 0 then
    if s.TxPrimed = 0 then
      (true, { s with TX_Buffer := r.2, TxPrimed := 1, TXEIE := true })
    else
      (true, { s with TX_Buffer := r.2 })
  else
    (false, { s with TX_Buffer := r.2 })

/-- The function `putcharC` run without interrupts: at most `fuel` loop
attempts; `none` when the loop has not ended within them. -/
def putcharC : Nat → Int → Sys → Option Sys
  | 0, _, _ => none
  | fuel + 1, c, s =>
    if (putcharC_attempt c s).1 then putcharC fuel c (putcharC_attempt c s).2
    else some (putcharC_attempt c s).2

/-- The function `putcharC` run with the handler preempting it between loop
attempts: after every failed attempt one invocation of `USART2_IRQHandler`
takes place, reading the next element of the list, before the loop condition
is evaluated again; `none` when the list is used up and the loop has not
ended. -/
def putcharC_irq : List UsartIn → Int → Sys → Option Sys
  | [], c, s =>
    if (putcharC_attempt c s).1 then none else some (putcharC_attempt c s).2
  | hw :: hws, c, s =>
    if (putcharC_attempt c s).1 then
      putcharC_irq hws c (USART2_IRQHandler hw (putcharC_attempt c s).2).1
    else some (putcharC_attempt c s).2

/-! ## Drivers: sequences of system calls -/

/-- One step of the system: an invocation of the handler with the values it
reads from the peripheral, one loop attempt of `putcharC`, or a call of
`getcharC`. -/
inductive SysCall where
  | irq (hw : UsartIn)
  | putAttempt (c : Int)
  | getchar

/-- The system state after one step. -/
def SysCall.perform (c : SysCall) (s : Sys) : Sys :=
  match c with
  | .irq hw => (USART2_IRQHandler hw s).1
  | .putAttempt x => (putcharC_attempt x s).2
  | .getchar => (getcharC s).2

/-- The system state after a sequence of steps. -/
def runSys (s : Sys) : List SysCall → Sys
  | [] => s
  | c :: cs => runSys (c.perform s) cs

/-- Invokes the handler once for every element of the list, in order; returns
the outputs of the invocations and the final state. -/
def irqAll (s : Sys) : List UsartIn → List IrqOut × Sys
  | [] => ([], s)
  | hw :: hws =>
    ((USART2_IRQHandler hw s).2 :: (irqAll (USART2_IRQHandler hw s).1 hws).1,
      (irqAll (USART2_IRQHandler hw s).1 hws).2)

/-- Calls `getcharC` `k` times; returns the results and the final state. -/
def getcharN (s : Sys) : Nat → List GetResult × Sys
  | 0 => ([], s)
  | k + 1 =>
    ((getcharC s).1 :: (getcharN (getcharC s).2 k).1, (getcharN (getcharC s).2 k).2)

/-- A receive interrupt delivering the byte `b`, with the TXE flag as given. -/
def rxIrq (b : Nat) (txe : Bool) : UsartIn :=
  { RXNE := true, RDR := b, TXE := txe }

/-- Index of the array cell written by `enqueue` (`q[pWR] = data`), if the
call writes one. -/
def enqueueIndex (RTque : RTQueue) : Option Nat :=
  if QueueFull RTque ≠ 0 then none else some RTque.pWR

/-- Index of the array cell read by `dequeue` (`*data = q[pRD]`), if the call
reads one. -/
def dequeueIndex (RTque : RTQueue) : Option Nat :=
  if QueueEmpty RTque ≠ 0 then none else some RTque.pRD

/-- The start-up state with the indices of `RX_Buffer` at cell 510. -/
def sysRxAt510 : Sys :=
  { initSys with RX_Buffer := emptyAt510 }

/-- Three receive interrupts delivering 65, 66, 67; TXE is active in the
second. -/
def threeRx : List UsartIn :=
  [rxIrq 65 false, rxIrq 66 true, rxIrq 67 false]

/-- Twelve consecutive receive interrupts, each delivering the byte 65. -/
def twelveRx : List UsartIn :=
  List.replicate 12 (rxIrq 65 false)

/-- The start-up state with `RxOverflow` set and a full `RX_Buffer`. -/
def sysOverflowed : Sys :=
  { initSys with RX_Buffer := fullQueue, RxOverflow := 1 }

/-- The start-up state with a full `TX_Buffer`. -/
def sysTxFull : Sys :=
  { initSys with TX_Buffer := fullQueue }

/-! ## Basic facts about the helper functions -/

theorem QueueFull_eq_one_iff (R : RTQueue) :
    QueueFull R = 1 ↔ (R.pWR + 1) % QUEUE_SIZE = R.pRD := by
  unfold QueueFull
  split <;> simp_all

theorem QueueFull_eq_zero_iff (R : RTQueue) :
    QueueFull R = 0 ↔ (R.pWR + 1) % QUEUE_SIZE ≠ R.pRD := by
  unfold QueueFull
  split <;> simp_all

theorem QueueEmpty_eq_one_iff (R : RTQueue) :
    QueueEmpty R = 1 ↔ R.pRD = R.pWR := by
  unfold QueueEmpty
  split <;> simp_all

theorem QueueEmpty_eq_zero_iff (R : RTQueue) :
    QueueEmpty R = 0 ↔ R.pRD ≠ R.pWR := by
  unfold QueueEmpty
  split <;> simp_all

theorem enqueue_of_full (R : RTQueue) (d : Nat)
    (h : (R.pWR + 1) % QUEUE_SIZE = R.pRD) : enqueue R d = (0, R) := by
  simp [enqueue, QueueFull, h]

theorem enqueue_of_not_full (R : RTQueue) (d : Nat)
    (h : (R.pWR + 1) % QUEUE_SIZE ≠ R.pRD) :
    enqueue R d =
      (1,
        { pRD := R.pRD
          pWR := if R.pWR + 1 = QUEUE_SIZE then 0 else (R.pWR + 1) % U16
          sizeRecieve := (R.sizeRecieve + 1) % U16
          q := store R.q R.pWR (d % U8) }) := by
  simp [enqueue, QueueFull, h]

theorem dequeue_of_empty (R : RTQueue) (o : Nat) (h : R.pRD = R.pWR) :
    dequeue R o = (0, o, R) := by
  simp [dequeue, QueueEmpty, h]

theorem dequeue_of_not_empty (R : RTQueue) (o : Nat) (h : R.pRD ≠ R.pWR) :
    dequeue R o =
      (1, R.q R.pRD,
        { pRD := if R.pRD + 1 = QUEUE_SIZE then 0 else (R.pRD + 1) % U16
          pWR := R.pWR
          sizeRecieve := (R.sizeRecieve + (U16 - 1)) % U16
          q := R.q }) := by
  simp [dequeue, QueueEmpty, h]

/-! ## C1 – C4: contracts of `enqueue` and `dequeue` -/

/-- C1 (as stated, refuted): on the queue `counterMaxQueue`, whose indices are
in range and which is not full, `enqueue` of the byte 7 returns 1 but the
counter wraps to 0 instead of becoming the old counter plus one. -/
theorem C1_counter_wraps :
    counterMaxQueue.pRD < QUEUE_SIZE ∧ counterMaxQueue.pWR < QUEUE_SIZE ∧
    QueueFull counterMaxQueue = 0 ∧ 7 < 256 ∧
    (enqueue counterMaxQueue 7).1 = 1 ∧
    (enqueue counterMaxQueue 7).2.sizeRecieve = 0 ∧
    (enqueue counterMaxQueue 7).2.sizeRecieve ≠ counterMaxQueue.sizeRecieve + 1 := by
  decide

/-- C1 (amended): for every queue with `pRD < QUEUE_SIZE` and
`pWR < QUEUE_SIZE` that is not full and every byte `d`, `enqueue` returns 1,
the new queue has `q[old pWR] = d`, `pWR = (old pWR + 1) mod QUEUE_SIZE`,
`sizeRecieve = (old sizeRecieve + 1) mod 2^16` (which is the old counter plus
one whenever the old counter is below 65535), and `pRD` and every other
buffer slot are unchanged. -/
theorem C1_enqueue_not_full (R : RTQueue) (d : Nat)
    (hR : R.pRD < QUEUE_SIZE) (hW : R.pWR < QUEUE_SIZE)
    (hF : QueueFull R = 0) (hd : d < 256) :
    (enqueue R d).1 = 1 ∧
    (enqueue R d).2.q R.pWR = d ∧
    (enqueue R d).2.pWR = (R.pWR + 1) % QUEUE_SIZE ∧
    (enqueue R d).2.sizeRecieve = (R.sizeRecieve + 1) % 65536 ∧
    (R.sizeRecieve < 65535 → (enqueue R d).2.sizeRecieve = R.sizeRecieve + 1) ∧
    (enqueue R d).2.pRD = R.pRD ∧
    ∀ j, j ≠ R.pWR → (enqueue R d).2.q j = R.q j := by
  have hF' := (QueueFull_eq_zero_iff R).1 hF
  rw [enqueue_of_not_full R d hF']
  simp only [QUEUE_SIZE] at hR hW
  refine ⟨rfl, ?_, ?_, rfl, ?_, rfl, ?_⟩
  · simp [store, U8, Nat.mod_eq_of_lt hd]
  · show (if R.pWR + 1 = 512 then 0 else (R.pWR + 1) % 65536) = (R.pWR + 1) % 512
    split <;> omega
  · intro hs
    show (R.sizeRecieve + 1) % 65536 = R.sizeRecieve + 1
    omega
  · intro j hj
    simp [store, hj]

/-- C1 witness: the amended contract applied to `wrapQueue` and the byte 67. -/
theorem C1_enqueue_not_full_witness :
    (enqueue wrapQueue 67).1 = 1 ∧
    (enqueue wrapQueue 67).2.q wrapQueue.pWR = 67 ∧
    (enqueue wrapQueue 67).2.pWR = (wrapQueue.pWR + 1) % QUEUE_SIZE ∧
    (enqueue wrapQueue 67).2.sizeRecieve = (wrapQueue.sizeRecieve + 1) % 65536 ∧
    (wrapQueue.sizeRecieve < 65535 →
      (enqueue wrapQueue 67).2.sizeRecieve = wrapQueue.sizeRecieve + 1) ∧
    (enqueue wrapQueue 67).2.pRD = wrapQueue.pRD ∧
    ∀ j, j ≠ wrapQueue.pWR → (enqueue wrapQueue 67).2.q j = wrapQueue.q j :=
  C1_enqueue_not_full wrapQueue 67 (by decide) (by decide) (by decide) (by decide)

/-- C2: for every queue with `(pWR + 1) mod QUEUE_SIZE = pRD` (full) and
every byte `d`, `enqueue` returns 0 and the queue after the call is the queue
before the call (indices, counter and every buffer slot); repeating the
failed call any number `n` of times returns 0 each time and leaves the queue
as it was. -/
theorem C2_enqueue_full (R : RTQueue) (d : Nat)
    (h : (R.pWR + 1) % QUEUE_SIZE = R.pRD) :
    enqueue R d = (0, R) ∧
    ∀ n, enqueueAll R (List.replicate n d) = (List.replicate n 0, R) := by
  have h1 := enqueue_of_full R d h
  refine ⟨h1, ?_⟩
  intro n
  induction n with
  | zero => rfl
  | succ n ih => simp [List.replicate_succ, enqueueAll, h1, ih]

/-- C2 witness: the contract applied to `fullQueue` and the byte 9. -/
theorem C2_enqueue_full_witness :
    (fullQueue.pWR + 1) % QUEUE_SIZE = fullQueue.pRD ∧
    enqueue fullQueue 9 = (0, fullQueue) ∧
    ∀ n, enqueueAll fullQueue (List.replicate n 9) = (List.replicate n 0, fullQueue) :=
  ⟨by decide, C2_enqueue_full fullQueue 9 (by decide)⟩

/-- C3 (as stated, refuted): on the queue `counterZeroQueue`, whose indices
are in range and differ, `dequeue` returns 1 but the counter becomes 65535,
which is not the old counter minus one. -/
theorem C3_counter_wraps :
    counterZeroQueue.pRD < QUEUE_SIZE ∧ counterZeroQueue.pWR < QUEUE_SIZE ∧
    counterZeroQueue.pRD ≠ counterZeroQueue.pWR ∧
    (dequeue counterZeroQueue 0).1 = 1 ∧
    (dequeue counterZeroQueue 0).2.2.sizeRecieve = 65535 ∧
    ((dequeue counterZeroQueue 0).2.2.sizeRecieve : Int) ≠
      (counterZeroQueue.sizeRecieve : Int) - 1 := by
  decide

/-- C3 (amended): for every queue with `pRD < QUEUE_SIZE` and
`pWR < QUEUE_SIZE` that is not empty (`pRD ≠ pWR`), `dequeue` returns 1,
writes `q[old pRD]` to the output byte, and the new queue has
`pRD = (old pRD + 1) mod QUEUE_SIZE` and
`sizeRecieve = (old sizeRecieve - 1) mod 2^16` (which is the old counter minus
one whenever the old counter is at least 1), while `pWR` and every buffer
slot are unchanged. -/
theorem C3_dequeue_not_empty (R : RTQueue) (o : Nat)
    (hR : R.pRD < QUEUE_SIZE) (hW : R.pWR < QUEUE_SIZE) (hne : R.pRD ≠ R.pWR) :
    (dequeue R o).1 = 1 ∧
    (dequeue R o).2.1 = R.q R.pRD ∧
    (dequeue R o).2.2.pRD = (R.pRD + 1) % QUEUE_SIZE ∧
    ((dequeue R o).2.2.sizeRecieve : Int) = ((R.sizeRecieve : Int) - 1) % 65536 ∧
    (1 ≤ R.sizeRecieve → R.sizeRecieve < 65536 →
      (dequeue R o).2.2.sizeRecieve = R.sizeRecieve - 1) ∧
    (dequeue R o).2.2.pWR = R.pWR ∧
    (dequeue R o).2.2.q = R.q := by
  rw [dequeue_of_not_empty R o hne]
  simp only [QUEUE_SIZE] at hR hW
  refine ⟨rfl, rfl, ?_, ?_, ?_, rfl, rfl⟩
  · show (if R.pRD + 1 = 512 then 0 else (R.pRD + 1) % 65536) = (R.pRD + 1) % 512
    split <;> omega
  · show (((R.sizeRecieve + (65536 - 1)) % 65536 : Nat) : Int) = ((R.sizeRecieve : Int) - 1) % 65536
    omega
  · intro h1 h2
    show (R.sizeRecieve + (65536 - 1)) % 65536 = R.sizeRecieve - 1
    omega

/-- C3 witness: the amended contract applied to `wrapQueue`, whose read index
is 510. -/
theorem C3_dequeue_not_empty_witness :
    (dequeue wrapQueue 0).1 = 1 ∧
    (dequeue wrapQueue 0).2.1 = wrapQueue.q wrapQueue.pRD ∧
    (dequeue wrapQueue 0).2.2.pRD = (wrapQueue.pRD + 1) % QUEUE_SIZE ∧
    ((dequeue wrapQueue 0).2.2.sizeRecieve : Int) =
      ((wrapQueue.sizeRecieve : Int) - 1) % 65536 ∧
    (1 ≤ wrapQueue.sizeRecieve → wrapQueue.sizeRecieve < 65536 →
      (dequeue wrapQueue 0).2.2.sizeRecieve = wrapQueue.sizeRecieve - 1) ∧
    (dequeue wrapQueue 0).2.2.pWR = wrapQueue.pWR ∧
    (dequeue wrapQueue 0).2.2.q = wrapQueue.q :=
  C3_dequeue_not_empty wrapQueue 0 (by decide) (by decide) (by decide)

/-- C4: for every queue with `pRD = pWR` (empty) and every prior content `o`
of the output byte, `dequeue` returns 0, the output byte still holds `o`, and
the queue after the call is the queue before the call (indices, counter and
every buffer slot). -/
theorem C4_dequeue_empty (R : RTQueue) (o : Nat) (h : R.pRD = R.pWR) :
    (dequeue R o).1 = 0 ∧ (dequeue R o).2.1 = o ∧ (dequeue R o).2.2 = R := by
  rw [dequeue_of_empty R o h]
  exact ⟨rfl, rfl, rfl⟩

/-- C4 witness: the contract applied to the initial queue and an output byte
holding 42. -/
theorem C4_dequeue_empty_witness :
    initQueue.pRD = initQueue.pWR ∧
    (dequeue initQueue 42).1 = 0 ∧ (dequeue initQueue 42).2.1 = 42 ∧
    (dequeue initQueue 42).2.2 = initQueue :=
  ⟨rfl, C4_dequeue_empty initQueue 42 rfl⟩

/-! ## The abstraction under `enqueue` and `dequeue` -/

theorem length_contents (R : RTQueue) : (contents R).length = occupancy R := by
  simp [contents]

theorem occupancy_lt (R : RTQueue) : occupancy R < QUEUE_SIZE := by
  unfold occupancy QUEUE_SIZE
  omega

theorem occupancy_eq_zero_iff (R : RTQueue) (h : InRange R) :
    occupancy R = 0 ↔ R.pRD = R.pWR := by
  unfold InRange QUEUE_SIZE at h
  unfold occupancy QUEUE_SIZE
  omega

theorem full_iff_occupancy (R : RTQueue) (h : InRange R) :
    (R.pWR + 1) % QUEUE_SIZE = R.pRD ↔ occupancy R = QUEUE_SIZE - 1 := by
  unfold InRange QUEUE_SIZE at h
  unfold occupancy QUEUE_SIZE
  omega

theorem contents_eq_nil_iff (R : RTQueue) (h : InRange R) :
    contents R = [] ↔ R.pRD = R.pWR := by
  rw [← occupancy_eq_zero_iff R h, ← length_contents, List.length_eq_zero]

theorem enqueue_inRange (R : RTQueue) (d : Nat) (h : InRange R) :
    InRange (enqueue R d).2 := by
  by_cases hF : (R.pWR + 1) % QUEUE_SIZE = R.pRD
  · rw [enqueue_of_full R d hF]
    exact h
  · rw [enqueue_of_not_full R d hF]
    unfold InRange QUEUE_SIZE at *
    refine ⟨h.1, ?_⟩
    show (if R.pWR + 1 = 512 then 0 else (R.pWR + 1) % U16) < 512
    unfold U16
    split <;> omega

theorem dequeue_inRange (R : RTQueue) (o : Nat) (h : InRange R) :
    InRange (dequeue R o).2.2 := by
  by_cases hE : R.pRD = R.pWR
  · rw [dequeue_of_empty R o hE]
    exact h
  · rw [dequeue_of_not_empty R o hE]
    unfold InRange QUEUE_SIZE at *
    refine ⟨?_, h.2⟩
    show (if R.pRD + 1 = 512 then 0 else (R.pRD + 1) % U16) < 512
    unfold U16
    split <;> omega

theorem enqueue_occupancy (R : RTQueue) (d : Nat) (h : InRange R)
    (hF : (R.pWR + 1) % QUEUE_SIZE ≠ R.pRD) :
    occupancy (enqueue R d).2 = occupancy R + 1 := by
  rw [enqueue_of_not_full R d hF]
  unfold InRange QUEUE_SIZE at *
  unfold occupancy QUEUE_SIZE U16
  show ((if R.pWR + 1 = 512 then 0 else (R.pWR + 1) % 65536) + 512 - R.pRD) % 512 =
    (R.pWR + 512 - R.pRD) % 512 + 1
  split <;> omega

theorem dequeue_occupancy (R : RTQueue) (o : Nat) (h : InRange R)
    (hE : R.pRD ≠ R.pWR) :
    occupancy R = occupancy (dequeue R o).2.2 + 1 := by
  rw [dequeue_of_not_empty R o hE]
  unfold InRange QUEUE_SIZE at *
  unfold occupancy QUEUE_SIZE U16
  show (R.pWR + 512 - R.pRD) % 512 =
    (R.pWR + 512 - (if R.pRD + 1 = 512 then 0 else (R.pRD + 1) % 65536)) % 512 + 1
  split <;> omega

theorem enqueue_contents (R : RTQueue) (d : Nat) (h : InRange R)
    (hF : (R.pWR + 1) % QUEUE_SIZE ≠ R.pRD) (hd : d < 256) :
    contents (enqueue R d).2 = contents R ++ [d] := by
  have hocc := enqueue_occupancy R d h hF
  unfold contents
  rw [hocc, List.range_succ, List.map_append]
  rw [enqueue_of_not_full R d hF] at *
  unfold InRange QUEUE_SIZE at *
  have hcell : ∀ i, i < occupancy R → (R.pRD + i) % 512 ≠ R.pWR := by
    intro i hi
    unfold occupancy QUEUE_SIZE at hi
    omega
  have hlast : (R.pRD + occupancy R) % 512 = R.pWR := by
    unfold occupancy QUEUE_SIZE
    omega
  congr 1
  · apply List.map_congr_left
    intro i hi
    have hi' := hcell i (List.mem_range.1 hi)
    show store R.q R.pWR (d % U8) ((R.pRD + i) % 512) = R.q ((R.pRD + i) % 512)
    simp [store, hi']
  · show [store R.q R.pWR (d % U8) ((R.pRD + occupancy R) % 512)] = [d]
    simp [store, hlast, U8, Nat.mod_eq_of_lt hd]

theorem dequeue_contents (R : RTQueue) (o : Nat) (h : InRange R)
    (hE : R.pRD ≠ R.pWR) :
    contents R = R.q R.pRD :: contents (dequeue R o).2.2 := by
  have hocc := dequeue_occupancy R o h hE
  unfold contents
  rw [hocc, List.range_succ_eq_map, List.map_cons, List.map_map]
  rw [dequeue_of_not_empty R o hE] at *
  unfold InRange QUEUE_SIZE at *
  congr 1
  · simp [Nat.mod_eq_of_lt h.1]
  · apply List.map_congr_left
    intro i _
    show R.q ((R.pRD + (i + 1)) % 512) =
      R.q (((if R.pRD + 1 = 512 then 0 else (R.pRD + 1) % U16) + i) % 512)
    congr 1
    unfold U16
    split <;> omega

/-! ## Sequences of enqueues and of dequeues -/

theorem enqueueAll_contents (bs : List Nat) :
    ∀ R : RTQueue, InRange R → occupancy R + bs.length ≤ QUEUE_SIZE - 1 →
      (∀ b ∈ bs, b < 256) →
      (enqueueAll R bs).1 = List.replicate bs.length 1 ∧
      InRange (enqueueAll R bs).2 ∧
      contents (enqueueAll R bs).2 = contents R ++ bs ∧
      (enqueueAll R bs).2.pRD = R.pRD := by
  induction bs with
  | nil =>
    intro R h _ _
    simp [enqueueAll, h]
  | cons b bs ih =>
    intro R h hlen hb
    have hF : (R.pWR + 1) % QUEUE_SIZE ≠ R.pRD := by
      rw [Ne, full_iff_occupancy R h]
      simp only [List.length_cons] at hlen
      omega
    have h1 : (enqueue R b).1 = 1 := by rw [enqueue_of_not_full R b hF]
    have hp : (enqueue R b).2.pRD = R.pRD := by rw [enqueue_of_not_full R b hF]
    have hocc := enqueue_occupancy R b h hF
    have hc := enqueue_contents R b h hF (hb b (List.mem_cons_self b bs))
    obtain ⟨r1, r2, r3, r4⟩ := ih (enqueue R b).2 (enqueue_inRange R b h)
      (by simp only [List.length_cons] at hlen; omega)
      (fun x hx => hb x (List.mem_cons_of_mem b hx))
    refine ⟨?_, r2, ?_, ?_⟩
    · simp [enqueueAll, h1, r1, List.replicate_succ]
    · simp [enqueueAll, r3, hc]
    · simp [enqueueAll, r4, hp]

theorem dequeueN_contents (k : Nat) :
    ∀ R : RTQueue, InRange R → occupancy R = k →
      (dequeueN R k).1 = (contents R).map (fun b => (1, b)) ∧
      InRange (dequeueN R k).2 ∧
      (dequeueN R k).2.pRD = (dequeueN R k).2.pWR := by
  induction k with
  | zero =>
    intro R h hk
    have hE := (occupancy_eq_zero_iff R h).1 hk
    have hc := (contents_eq_nil_iff R h).2 hE
    simp [dequeueN, h, hE, hc]
  | succ k ih =>
    intro R h hk
    have hE : R.pRD ≠ R.pWR := by
      rw [Ne, ← occupancy_eq_zero_iff R h]
      omega
    have hocc := dequeue_occupancy R 0 h hE
    have hc := dequeue_contents R 0 h hE
    have h1 : (dequeue R 0).1 = 1 := by rw [dequeue_of_not_empty R 0 hE]
    have h2 : (dequeue R 0).2.1 = R.q R.pRD := by rw [dequeue_of_not_empty R 0 hE]
    obtain ⟨r1, r2, r3⟩ := ih (dequeue R 0).2.2 (dequeue_inRange R 0 h) (by omega)
    refine ⟨?_, r2, r3⟩
    rw [hc]
    simp [dequeueN, h1, h2, r1]

/-! ## C5: FIFO round trip -/

/-- C5: for every empty queue with `pRD = pWR < QUEUE_SIZE` (whatever the
index position) and every list `bs` of at most `QUEUE_SIZE - 1` bytes,
enqueueing the bytes in order returns 1 every time, and as many dequeues
afterwards all return 1 with the output bytes equal to `bs` in the same
order, and the final queue is empty (`QueueEmpty` returns 1). -/
theorem C5_fifo_round_trip (R : RTQueue) (bs : List Nat)
    (hE : R.pRD = R.pWR) (hW : R.pWR < QUEUE_SIZE)
    (hk : bs.length ≤ QUEUE_SIZE - 1) (hb : ∀ b ∈ bs, b < 256) :
    (enqueueAll R bs).1 = List.replicate bs.length 1 ∧
    (dequeueN (enqueueAll R bs).2 bs.length).1 = bs.map (fun b => (1, b)) ∧
    QueueEmpty (dequeueN (enqueueAll R bs).2 bs.length).2 = 1 := by
  have h : InRange R := ⟨hE ▸ hW, hW⟩
  have h0 : occupancy R = 0 := (occupancy_eq_zero_iff R h).2 hE
  have hc0 : contents R = [] := (contents_eq_nil_iff R h).2 hE
  obtain ⟨e1, e2, e3, _⟩ := enqueueAll_contents bs R h (by omega) hb
  have hocc : occupancy (enqueueAll R bs).2 = bs.length := by
    rw [← length_contents, e3, hc0, List.nil_append]
  obtain ⟨d1, _, d3⟩ := dequeueN_contents bs.length (enqueueAll R bs).2 e2 hocc
  refine ⟨e1, ?_, (QueueEmpty_eq_one_iff _).2 d3⟩
  rw [d1, e3, hc0, List.nil_append]

/-- C5 witness: three bytes through the empty queue `emptyAt510`, so that the
indices wrap from 511 to 0 inside the run. -/
theorem C5_fifo_round_trip_witness :
    (enqueueAll emptyAt510 [65, 66, 67]).1 = List.replicate [65, 66, 67].length 1 ∧
    (dequeueN (enqueueAll emptyAt510 [65, 66, 67]).2 [65, 66, 67].length).1 =
      [65, 66, 67].map (fun b => (1, b)) ∧
    QueueEmpty (dequeueN (enqueueAll emptyAt510 [65, 66, 67]).2 [65, 66, 67].length).2 = 1 :=
  C5_fifo_round_trip emptyAt510 [65, 66, 67] (by decide) (by decide) (by decide) (by decide)

/-! ## The counter invariant on reachable queues -/

/-- Invariant of the queues reachable from `initQueue`: the indices are in
range and the counter equals the number of cells between them. -/
theorem counter_invariant (cs : List QueueCall) :
    ∀ R : RTQueue, InRange R → R.sizeRecieve = occupancy R →
      InRange (runCalls R cs) ∧
      (runCalls R cs).sizeRecieve = occupancy (runCalls R cs) ∧
      (runCalls R cs).sizeRecieve + dequeuesOk R cs = R.sizeRecieve + enqueuesOk R cs := by
  induction cs with
  | nil =>
    intro R h hs
    exact ⟨h, hs, rfl⟩
  | cons c cs ih =>
    intro R h hs
    have hlt := occupancy_lt R
    unfold QUEUE_SIZE at hlt
    cases c with
    | enq d =>
      by_cases hF : (R.pWR + 1) % QUEUE_SIZE = R.pRD
      · have he := enqueue_of_full R d hF
        obtain ⟨r1, r2, r3⟩ := ih R h hs
        simp only [runCalls, QueueCall.perform, enqueuesOk, dequeuesOk, he]
        refine ⟨r1, r2, ?_⟩
        simp only [Nat.zero_ne_one, if_false]
        omega
      · have hocc := enqueue_occupancy R d h hF
        have h1 : (enqueue R d).1 = 1 := by rw [enqueue_of_not_full R d hF]
        have hsz : (enqueue R d).2.sizeRecieve = R.sizeRecieve + 1 := by
          rw [enqueue_of_not_full R d hF]
          show (R.sizeRecieve + 1) % U16 = R.sizeRecieve + 1
          unfold U16
          omega
        obtain ⟨r1, r2, r3⟩ := ih (enqueue R d).2 (enqueue_inRange R d h)
          (by rw [hsz, hocc, hs])
        simp only [runCalls, QueueCall.perform, enqueuesOk, dequeuesOk, h1, if_true]
        refine ⟨r1, r2, ?_⟩
        omega
    | deq =>
      by_cases hE : R.pRD = R.pWR
      · have he := dequeue_of_empty R 0 hE
        obtain ⟨r1, r2, r3⟩ := ih R h hs
        simp only [runCalls, QueueCall.perform, enqueuesOk, dequeuesOk, he]
        refine ⟨r1, r2, ?_⟩
        simp only [Nat.zero_ne_one, if_false]
        omega
      · have hocc := dequeue_occupancy R 0 h hE
        have h1 : (dequeue R 0).1 = 1 := by rw [dequeue_of_not_empty R 0 hE]
        have hsz : (dequeue R 0).2.2.sizeRecieve + 1 = R.sizeRecieve := by
          rw [dequeue_of_not_empty R 0 hE]
          show (R.sizeRecieve + (U16 - 1)) % U16 + 1 = R.sizeRecieve
          unfold U16
          omega
        obtain ⟨r1, r2, r3⟩ := ih (dequeue R 0).2.2 (dequeue_inRange R 0 h)
          (by omega)
        simp only [runCalls, QueueCall.perform, enqueuesOk, dequeuesOk, h1, if_true]
        refine ⟨r1, r2, ?_⟩
        omega

theorem initQueue_inRange : InRange initQueue := by
  unfold InRange
  decide

theorem initQueue_counter : initQueue.sizeRecieve = occupancy initQueue := by
  decide

/-! ## C6 – C8: counter, emptiness and fullness on reachable queues -/

/-- C6: for every finite sequence of `enqueue` and `dequeue` calls applied to
the initial queue, the resulting `sizeRecieve` equals the number of enqueues
that returned 1 minus the number of dequeues that returned 1, and is at most
`QUEUE_SIZE - 1` (hence within the range of `uint16_t`). -/
theorem C6_counter_is_enqueues_minus_dequeues (cs : List QueueCall) :
    ((runCalls initQueue cs).sizeRecieve : Int) =
      (enqueuesOk initQueue cs : Int) - (dequeuesOk initQueue cs : Int) ∧
    (runCalls initQueue cs).sizeRecieve ≤ QUEUE_SIZE - 1 ∧
    (runCalls initQueue cs).sizeRecieve < 65536 := by
  obtain ⟨_, r2, r3⟩ := counter_invariant cs initQueue initQueue_inRange initQueue_counter
  have hlt := occupancy_lt (runCalls initQueue cs)
  have h0 : initQueue.sizeRecieve = 0 := rfl
  unfold QUEUE_SIZE at *
  omega

/-- C7: in every queue reachable from the initial queue by a sequence of
`enqueue` and `dequeue` calls, `sizeRecieve = 0` if and only if `pRD = pWR`,
that is if and only if `QueueEmpty` returns 1. -/
theorem C7_counter_zero_iff_empty (cs : List QueueCall) :
    ((runCalls initQueue cs).sizeRecieve = 0 ↔
      (runCalls initQueue cs).pRD = (runCalls initQueue cs).pWR) ∧
    ((runCalls initQueue cs).sizeRecieve = 0 ↔ QueueEmpty (runCalls initQueue cs) = 1) := by
  obtain ⟨r1, r2, _⟩ := counter_invariant cs initQueue initQueue_inRange initQueue_counter
  have h := occupancy_eq_zero_iff (runCalls initQueue cs) r1
  rw [QueueEmpty_eq_one_iff, r2]
  exact ⟨h, h⟩

/-- Filling a queue whose read index is 0: `n` enqueues advance the write
index and the counter by `n` as long as cell 511 is not passed. -/
theorem runCalls_fill (n : Nat) :
    ∀ R : RTQueue, R.pRD = 0 → R.pWR + n ≤ 511 → R.sizeRecieve = R.pWR →
      (runCalls R (List.replicate n (QueueCall.enq 0))).pRD = 0 ∧
      (runCalls R (List.replicate n (QueueCall.enq 0))).pWR = R.pWR + n ∧
      (runCalls R (List.replicate n (QueueCall.enq 0))).sizeRecieve = R.pWR + n := by
  induction n with
  | zero =>
    intro R h0 _ hs
    exact ⟨h0, rfl, hs⟩
  | succ n ih =>
    intro R h0 hn hs
    have hF : (R.pWR + 1) % QUEUE_SIZE ≠ R.pRD := by
      unfold QUEUE_SIZE
      omega
    have he := enqueue_of_not_full R 0 hF
    have e1 : (enqueue R 0).2.pRD = 0 := by rw [he]; exact h0
    have e2 : (enqueue R 0).2.pWR = R.pWR + 1 := by
      rw [he]
      show (if R.pWR + 1 = QUEUE_SIZE then 0 else (R.pWR + 1) % U16) = R.pWR + 1
      unfold QUEUE_SIZE U16
      split <;> omega
    have e3 : (enqueue R 0).2.sizeRecieve = R.pWR + 1 := by
      rw [he]
      show (R.sizeRecieve + 1) % U16 = R.pWR + 1
      unfold U16
      omega
    obtain ⟨r1, r2, r3⟩ := ih (enqueue R 0).2 e1 (by omega) (by omega)
    simp only [List.replicate_succ, runCalls, QueueCall.perform]
    refine ⟨r1, ?_, ?_⟩ <;> omega

/-- C8 (as stated, refuted): after 511 successful enqueues on the initial
queue `QueueFull` returns 1 while `sizeRecieve` is 511, not `QUEUE_SIZE`. -/
theorem C8_full_at_511 :
    QueueFull (runCalls initQueue (List.replicate 511 (QueueCall.enq 0))) = 1 ∧
    (runCalls initQueue (List.replicate 511 (QueueCall.enq 0))).sizeRecieve = 511 ∧
    ¬ (QueueFull (runCalls initQueue (List.replicate 511 (QueueCall.enq 0))) = 1 ↔
        (runCalls initQueue (List.replicate 511 (QueueCall.enq 0))).sizeRecieve =
          QUEUE_SIZE) := by
  obtain ⟨r1, r2, r3⟩ := runCalls_fill 511 initQueue rfl (by decide) rfl
  have hw : initQueue.pWR = 0 := rfl
  rw [hw] at r2 r3
  have hfull : QueueFull (runCalls initQueue (List.replicate 511 (QueueCall.enq 0))) = 1 := by
    rw [QueueFull_eq_one_iff, r1, r2]
    decide
  refine ⟨hfull, r3, ?_⟩
  intro h
  have := h.1 hfull
  rw [r3] at this
  revert this
  decide

/-- C8 (amended): in every queue reachable from the initial queue by a
sequence of `enqueue` and `dequeue` calls, `QueueFull` returns 1
(`(pWR + 1) mod QUEUE_SIZE = pRD`) if and only if
`sizeRecieve = QUEUE_SIZE - 1`. -/
theorem C8_full_iff_counter (cs : List QueueCall) :
    (QueueFull (runCalls initQueue cs) = 1 ↔
      (runCalls initQueue cs).sizeRecieve = QUEUE_SIZE - 1) ∧
    (((runCalls initQueue cs).pWR + 1) % QUEUE_SIZE = (runCalls initQueue cs).pRD ↔
      (runCalls initQueue cs).sizeRecieve = QUEUE_SIZE - 1) := by
  obtain ⟨r1, r2, _⟩ := counter_invariant cs initQueue initQueue_inRange initQueue_counter
  have h := full_iff_occupancy (runCalls initQueue cs) r1
  rw [QueueFull_eq_one_iff, r2]
  exact ⟨h, h⟩

/-! ## C9: the capacity scenario at `N = QUEUE_SIZE` -/

/-- C9: starting from the initial queue, enqueueing the `QUEUE_SIZE - 1` bytes
`b1 :: rest` returns 1 every time (the write index then stands at the last
cell); a further enqueue of `d` returns 0 and changes nothing; a dequeue then
returns 1 with output byte `b1`; after it the enqueue of `d` returns 1 and
wraps the write index to 0; and the following `QUEUE_SIZE - 1` dequeues all
return 1 with output bytes `rest ++ [d]` in that order. -/
theorem C9_capacity_scenario (b1 : Nat) (rest : List Nat) (d : Nat)
    (hlen : rest.length = QUEUE_SIZE - 2) (hb1 : b1 < 256)
    (hrest : ∀ b ∈ rest, b < 256) (hd : d < 256) :
    (enqueueAll initQueue (b1 :: rest)).1 = List.replicate (QUEUE_SIZE - 1) 1 ∧
    (enqueueAll initQueue (b1 :: rest)).2.pWR = QUEUE_SIZE - 1 ∧
    enqueue (enqueueAll initQueue (b1 :: rest)).2 d =
      (0, (enqueueAll initQueue (b1 :: rest)).2) ∧
    (dequeue (enqueueAll initQueue (b1 :: rest)).2 0).1 = 1 ∧
    (dequeue (enqueueAll initQueue (b1 :: rest)).2 0).2.1 = b1 ∧
    (enqueue (dequeue (enqueueAll initQueue (b1 :: rest)).2 0).2.2 d).1 = 1 ∧
    (enqueue (dequeue (enqueueAll initQueue (b1 :: rest)).2 0).2.2 d).2.pWR = 0 ∧
    (dequeueN (enqueue (dequeue (enqueueAll initQueue (b1 :: rest)).2 0).2.2 d).2
        (QUEUE_SIZE - 1)).1 = (rest ++ [d]).map (fun b => (1, b)) := by
  have hi := initQueue_inRange
  have h0 : occupancy initQueue = 0 := by decide
  have hc0 : contents initQueue = [] := (contents_eq_nil_iff initQueue hi).2 rfl
  have hbs : ∀ b ∈ b1 :: rest, b < 256 := by
    intro b hb
    rcases List.mem_cons.1 hb with rfl | hb
    · exact hb1
    · exact hrest b hb
  have hl : (b1 :: rest).length = 511 := by
    simp only [List.length_cons, hlen, QUEUE_SIZE]
  obtain ⟨a1, a2, a3, a4⟩ := enqueueAll_contents (b1 :: rest) initQueue hi
    (by rw [h0, hl]; decide) hbs
  generalize enqueueAll initQueue (b1 :: rest) = A at a1 a2 a3 a4 ⊢
  rw [hc0, List.nil_append] at a3
  have hoccA : occupancy A.2 = 511 := by rw [← length_contents, a3, hl]
  have hpR : A.2.pRD = 0 := a4
  have hpW : A.2.pWR = 511 := by
    have := a2.2
    unfold occupancy at hoccA
    unfold QUEUE_SIZE at *
    omega
  have hfull : (A.2.pWR + 1) % QUEUE_SIZE = A.2.pRD := by
    rw [hpR, hpW]
    decide
  have hne : A.2.pRD ≠ A.2.pWR := by
    rw [hpR, hpW]
    decide
  have hdq := dequeue_of_not_empty A.2 0 hne
  have hdc := dequeue_contents A.2 0 a2 hne
  have hdr := dequeue_inRange A.2 0 a2
  have hdo := dequeue_occupancy A.2 0 a2 hne
  have d1 : (dequeue A.2 0).1 = 1 := by rw [hdq]
  have d2 : (dequeue A.2 0).2.1 = A.2.q A.2.pRD := by rw [hdq]
  have d3 : (dequeue A.2 0).2.2.pWR = 511 := by rw [hdq]; exact hpW
  have d4 : (dequeue A.2 0).2.2.pRD = 1 := by
    rw [hdq]
    show (if A.2.pRD + 1 = QUEUE_SIZE then 0 else (A.2.pRD + 1) % U16) = 1
    rw [hpR]
    decide
  rw [a3] at hdc
  injection hdc with hhead htail
  generalize dequeue A.2 0 = D at d1 d2 d3 d4 hdr hdo htail ⊢
  have hnf : (D.2.2.pWR + 1) % QUEUE_SIZE ≠ D.2.2.pRD := by
    rw [d3, d4]
    decide
  have heq := enqueue_of_not_full D.2.2 d hnf
  have hec := enqueue_contents D.2.2 d hdr hnf hd
  have her := enqueue_inRange D.2.2 d hdr
  have heo := enqueue_occupancy D.2.2 d hdr hnf
  have e1 : (enqueue D.2.2 d).1 = 1 := by rw [heq]
  have e2 : (enqueue D.2.2 d).2.pWR = 0 := by
    rw [heq]
    show (if D.2.2.pWR + 1 = QUEUE_SIZE then 0 else (D.2.2.pWR + 1) % U16) = 0
    rw [d3]
    decide
  rw [← htail] at hec
  have hoccE : occupancy (enqueue D.2.2 d).2 = QUEUE_SIZE - 1 := by
    unfold QUEUE_SIZE
    omega
  obtain ⟨f1, _, _⟩ := dequeueN_contents (QUEUE_SIZE - 1) (enqueue D.2.2 d).2 her hoccE
  refine ⟨?_, hpW, enqueue_of_full A.2 d hfull, d1, ?_, e1, e2, ?_⟩
  · rw [a1, hl]
    rfl
  · rw [d2, ← hhead]
  · rw [f1, hec]

/-- C9 witness: the scenario with first byte 65, then 510 bytes 66, and the
extra byte 67. -/
theorem C9_capacity_scenario_witness :
    (enqueueAll initQueue (65 :: List.replicate 510 66)).1 =
      List.replicate (QUEUE_SIZE - 1) 1 ∧
    (enqueueAll initQueue (65 :: List.replicate 510 66)).2.pWR = QUEUE_SIZE - 1 ∧
    enqueue (enqueueAll initQueue (65 :: List.replicate 510 66)).2 67 =
      (0, (enqueueAll initQueue (65 :: List.replicate 510 66)).2) ∧
    (dequeue (enqueueAll initQueue (65 :: List.replicate 510 66)).2 0).1 = 1 ∧
    (dequeue (enqueueAll initQueue (65 :: List.replicate 510 66)).2 0).2.1 = 65 ∧
    (enqueue (dequeue (enqueueAll initQueue (65 :: List.replicate 510 66)).2 0).2.2 67).1 = 1 ∧
    (enqueue (dequeue (enqueueAll initQueue (65 :: List.replicate 510 66)).2 0).2.2 67).2.pWR
      = 0 ∧
    (dequeueN
        (enqueue (dequeue (enqueueAll initQueue (65 :: List.replicate 510 66)).2 0).2.2 67).2
        (QUEUE_SIZE - 1)).1 = (List.replicate 510 66 ++ [67]).map (fun b => (1, b)) :=
  C9_capacity_scenario 65 (List.replicate 510 66) 67 (List.length_replicate 510 66)
    (by decide) (fun b hb => by rw [List.eq_of_mem_replicate hb]; decide) (by decide)

/-! ## The interrupt handler -/

theorem rxPath_of_full (hw : UsartIn) (s : Sys) (hrx : hw.RXNE = true)
    (hfull : (s.RX_Buffer.pWR + 1) % QUEUE_SIZE = s.RX_Buffer.pRD) :
    rxPath hw s =
      ({ s with RxOverflow := 1 }, decide (11 ≤ s.RX_Buffer.sizeRecieve)) := by
  simp [rxPath, hrx, enqueue_of_full s.RX_Buffer _ hfull]

theorem txPath_RX_Buffer (hw : UsartIn) (s : Sys) :
    (txPath hw s).1.RX_Buffer = s.RX_Buffer := by
  unfold txPath
  split
  · dsimp only
    split <;> rfl
  · rfl

theorem txPath_RxOverflow (hw : UsartIn) (s : Sys) :
    (txPath hw s).1.RxOverflow = s.RxOverflow := by
  unfold txPath
  split
  · dsimp only
    split <;> rfl
  · rfl

/-! ## C10: receive interrupt on a full receive queue -/

/-- C10: for every system state in which `RX_Buffer` is full and every
invocation of `USART2_IRQHandler` with RXNE active, whatever the received
byte, `RxOverflow` is 1 afterwards, `RX_Buffer` (indices, counter and every
buffer slot) is as before, and the byte is discarded: the state and the
outputs of the invocation are the same for every other received byte. -/
theorem C10_overflow_on_full (hw : UsartIn) (s : Sys)
    (hrx : hw.RXNE = true) (hfull : QueueFull s.RX_Buffer = 1) :
    (USART2_IRQHandler hw s).1.RxOverflow = 1 ∧
    (USART2_IRQHandler hw s).1.RX_Buffer = s.RX_Buffer ∧
    ∀ b, USART2_IRQHandler { hw with RDR := b } s = USART2_IRQHandler hw s := by
  have hf := (QueueFull_eq_one_iff s.RX_Buffer).1 hfull
  have h1 := rxPath_of_full hw s hrx hf
  refine ⟨?_, ?_, ?_⟩
  · show (txPath hw (rxPath hw s).1).1.RxOverflow = 1
    rw [txPath_RxOverflow, h1]
  · show (txPath hw (rxPath hw s).1).1.RX_Buffer = s.RX_Buffer
    rw [txPath_RX_Buffer, h1]
  · intro b
    have h2 := rxPath_of_full { hw with RDR := b } s hrx hf
    unfold USART2_IRQHandler
    rw [h1, h2]
    rfl

/-- C10 witness: the byte 90 arrives while `RX_Buffer` is `fullQueue`; the
transmitter is idle. -/
theorem C10_overflow_on_full_witness :
    (USART2_IRQHandler { RXNE := true, RDR := 90, TXE := false }
        { initSys with RX_Buffer := fullQueue }).1.RxOverflow = 1 ∧
    (USART2_IRQHandler { RXNE := true, RDR := 90, TXE := false }
        { initSys with RX_Buffer := fullQueue }).1.RX_Buffer = fullQueue ∧
    ∀ b, USART2_IRQHandler
        { ({ RXNE := true, RDR := 90, TXE := false } : UsartIn) with RDR := b }
        { initSys with RX_Buffer := fullQueue } =
      USART2_IRQHandler { RXNE := true, RDR := 90, TXE := false }
        { initSys with RX_Buffer := fullQueue } :=
  C10_overflow_on_full { RXNE := true, RDR := 90, TXE := false }
    { initSys with RX_Buffer := fullQueue } rfl (by decide)

/-! ## The two paths of the handler -/

theorem rxPath_TX_Buffer (hw : UsartIn) (s : Sys) :
    (rxPath hw s).1.TX_Buffer = s.TX_Buffer := by
  unfold rxPath
  split <;> rfl

theorem rxPath_TxPrimed (hw : UsartIn) (s : Sys) :
    (rxPath hw s).1.TxPrimed = s.TxPrimed := by
  unfold rxPath
  split <;> rfl

theorem rxPath_TXEIE (hw : UsartIn) (s : Sys) :
    (rxPath hw s).1.TXEIE = s.TXEIE := by
  unfold rxPath
  split <;> rfl

theorem txPath_send (hw : UsartIn) (s : Sys) (h1 : hw.TXE = true)
    (h2 : s.TXEIE = true) (hne : s.TX_Buffer.pRD ≠ s.TX_Buffer.pWR) :
    txPath hw s =
      ({ s with TX_Buffer := (dequeue s.TX_Buffer 0).2.2 },
        some (s.TX_Buffer.q s.TX_Buffer.pRD)) := by
  simp [txPath, h1, h2, dequeue_of_not_empty s.TX_Buffer 0 hne]

theorem txPath_drained (hw : UsartIn) (s : Sys) (h1 : hw.TXE = true)
    (h2 : s.TXEIE = true) (he : s.TX_Buffer.pRD = s.TX_Buffer.pWR) :
    txPath hw s = ({ s with TXEIE := false, TxPrimed := 0 }, none) := by
  simp [txPath, h1, h2, dequeue_of_empty s.TX_Buffer 0 he]

theorem txPath_gated (hw : UsartIn) (s : Sys)
    (h : hw.TXE = false ∨ s.TXEIE = false) : txPath hw s = (s, none) := by
  unfold txPath
  rcases h with h | h <;> simp [h]

/-! ## C11: the transmit path of one handler invocation -/

/-- C11: for every system state with a well-formed `TX_Buffer` and one
invocation of `USART2_IRQHandler`: if TXE is active, the TXE interrupt is
enabled and `TX_Buffer` is not empty, the oldest queued byte is written to
the transmit register and removed from the queue, and `TxPrimed` and the
interrupt enable are as before; if TXE is active and enabled and `TX_Buffer`
is empty, nothing is written, the TXE interrupt is disabled, `TxPrimed` is 0
and the queue is as before; if TXE is not active or the TXE interrupt is not
enabled, nothing is written and `TX_Buffer`, `TxPrimed` and the interrupt
enable are as before. -/
theorem C11_transmit_path (hw : UsartIn) (s : Sys) (hwf : InRange s.TX_Buffer) :
    (hw.TXE = true → s.TXEIE = true → s.TX_Buffer.pRD ≠ s.TX_Buffer.pWR →
      (USART2_IRQHandler hw s).2.TDR = some (s.TX_Buffer.q s.TX_Buffer.pRD) ∧
      contents s.TX_Buffer =
        s.TX_Buffer.q s.TX_Buffer.pRD :: contents (USART2_IRQHandler hw s).1.TX_Buffer ∧
      (USART2_IRQHandler hw s).1.TX_Buffer = (dequeue s.TX_Buffer 0).2.2 ∧
      (USART2_IRQHandler hw s).1.TxPrimed = s.TxPrimed ∧
      (USART2_IRQHandler hw s).1.TXEIE = s.TXEIE) ∧
    (hw.TXE = true → s.TXEIE = true → s.TX_Buffer.pRD = s.TX_Buffer.pWR →
      (USART2_IRQHandler hw s).2.TDR = none ∧
      (USART2_IRQHandler hw s).1.TXEIE = false ∧
      (USART2_IRQHandler hw s).1.TxPrimed = 0 ∧
      (USART2_IRQHandler hw s).1.TX_Buffer = s.TX_Buffer) ∧
    (hw.TXE = false ∨ s.TXEIE = false →
      (USART2_IRQHandler hw s).2.TDR = none ∧
      (USART2_IRQHandler hw s).1.TX_Buffer = s.TX_Buffer ∧
      (USART2_IRQHandler hw s).1.TxPrimed = s.TxPrimed ∧
      (USART2_IRQHandler hw s).1.TXEIE = s.TXEIE) := by
  have t1 := rxPath_TX_Buffer hw s
  have t2 := rxPath_TxPrimed hw s
  have t3 := rxPath_TXEIE hw s
  unfold USART2_IRQHandler
  generalize (rxPath hw s).1 = s1 at t1 t2 t3
  refine ⟨?_, ?_, ?_⟩
  · intro h1 h2 hne
    have hc := dequeue_contents s.TX_Buffer 0 hwf hne
    rw [txPath_send hw s1 h1 (t3 ▸ h2) (t1 ▸ hne)]
    refine ⟨?_, ?_, ?_, t2, t3⟩
    · show some (s1.TX_Buffer.q s1.TX_Buffer.pRD) = some (s.TX_Buffer.q s.TX_Buffer.pRD)
      rw [t1]
    · show contents s.TX_Buffer =
        s.TX_Buffer.q s.TX_Buffer.pRD :: contents (dequeue s1.TX_Buffer 0).2.2
      rw [t1]
      exact hc
    · show (dequeue s1.TX_Buffer 0).2.2 = (dequeue s.TX_Buffer 0).2.2
      rw [t1]
  · intro h1 h2 he
    rw [txPath_drained hw s1 h1 (t3 ▸ h2) (t1 ▸ he)]
    exact ⟨rfl, rfl, rfl, t1⟩
  · intro h
    rw [txPath_gated hw s1 (t3 ▸ h)]
    exact ⟨rfl, t1, t2, t3⟩

/-- C11 witness: the three cases at concrete states with TXE active: the
queue `wrapQueue` (oldest byte 65) with the interrupt enabled, the empty
initial queue with the interrupt enabled, and `wrapQueue` with the interrupt
disabled. -/
theorem C11_transmit_path_witness :
    ((USART2_IRQHandler { RXNE := false, RDR := 0, TXE := true }
        { initSys with TX_Buffer := wrapQueue, TxPrimed := 1, TXEIE := true }).2.TDR =
        some 65 ∧
      (USART2_IRQHandler { RXNE := false, RDR := 0, TXE := true }
        { initSys with TX_Buffer := wrapQueue, TxPrimed := 1, TXEIE := true }).1.TxPrimed =
        1) ∧
    ((USART2_IRQHandler { RXNE := false, RDR := 0, TXE := true }
        { initSys with TxPrimed := 1, TXEIE := true }).2.TDR = none ∧
      (USART2_IRQHandler { RXNE := false, RDR := 0, TXE := true }
        { initSys with TxPrimed := 1, TXEIE := true }).1.TXEIE = false ∧
      (USART2_IRQHandler { RXNE := false, RDR := 0, TXE := true }
        { initSys with TxPrimed := 1, TXEIE := true }).1.TxPrimed = 0) ∧
    ((USART2_IRQHandler { RXNE := false, RDR := 0, TXE := true }
        { initSys with TX_Buffer := wrapQueue }).2.TDR = none ∧
      (USART2_IRQHandler { RXNE := false, RDR := 0, TXE := true }
        { initSys with TX_Buffer := wrapQueue }).1.TX_Buffer = wrapQueue) :=
  ⟨⟨((C11_transmit_path { RXNE := false, RDR := 0, TXE := true }
        { initSys with TX_Buffer := wrapQueue, TxPrimed := 1, TXEIE := true }
        (by unfold InRange; decide)).1 rfl rfl (by decide)).1,
      ((C11_transmit_path { RXNE := false, RDR := 0, TXE := true }
        { initSys with TX_Buffer := wrapQueue, TxPrimed := 1, TXEIE := true }
        (by unfold InRange; decide)).1 rfl rfl (by decide)).2.2.2.1⟩,
    ⟨((C11_transmit_path { RXNE := false, RDR := 0, TXE := true }
        { initSys with TxPrimed := 1, TXEIE := true }
        (by unfold InRange; decide)).2.1 rfl rfl rfl).1,
      ((C11_transmit_path { RXNE := false, RDR := 0, TXE := true }
        { initSys with TxPrimed := 1, TXEIE := true }
        (by unfold InRange; decide)).2.1 rfl rfl rfl).2.1,
      ((C11_transmit_path { RXNE := false, RDR := 0, TXE := true }
        { initSys with TxPrimed := 1, TXEIE := true }
        (by unfold InRange; decide)).2.1 rfl rfl rfl).2.2.1⟩,
    ⟨((C11_transmit_path { RXNE := false, RDR := 0, TXE := true }
        { initSys with TX_Buffer := wrapQueue }
        (by unfold InRange; decide)).2.2 (Or.inr rfl)).1,
      ((C11_transmit_path { RXNE := false, RDR := 0, TXE := true }
        { initSys with TX_Buffer := wrapQueue }
        (by unfold InRange; decide)).2.2 (Or.inr rfl)).2.1⟩⟩

/-! ## The foreground functions -/

theorem toU8_lt (c : Int) : toU8 c < 256 := by
  unfold toU8
  omega

theorem toU8_eq (c : Int) : (toU8 c : Int) = c % 256 := by
  unfold toU8
  omega

theorem putcharC_attempt_of_not_full (c : Int) (s : Sys)
    (h : (s.TX_Buffer.pWR + 1) % QUEUE_SIZE ≠ s.TX_Buffer.pRD) :
    putcharC_attempt c s =
      (false, { s with TX_Buffer := (enqueue s.TX_Buffer (toU8 c)).2 }) := by
  simp [putcharC_attempt, enqueue_of_not_full s.TX_Buffer (toU8 c) h]

theorem putcharC_attempt_of_full (c : Int) (s : Sys)
    (h : (s.TX_Buffer.pWR + 1) % QUEUE_SIZE = s.TX_Buffer.pRD) :
    putcharC_attempt c s =
      if s.TxPrimed = 0 then (true, { s with TxPrimed := 1, TXEIE := true })
      else (true, s) := by
  simp [putcharC_attempt, enqueue_of_full s.TX_Buffer (toU8 c) h]

theorem getcharC_of_not_empty (s : Sys) (h : s.RX_Buffer.pRD ≠ s.RX_Buffer.pWR) :
    getcharC s =
      (GetResult.value (s.RX_Buffer.q s.RX_Buffer.pRD),
        { s with RX_Buffer := (dequeue s.RX_Buffer 0).2.2 }) := by
  simp [getcharC, dequeue_of_not_empty s.RX_Buffer 0 h]

theorem getcharC_of_empty (s : Sys) (h : s.RX_Buffer.pRD = s.RX_Buffer.pWR) :
    getcharC s = (GetResult.noReturn, s) := by
  simp [getcharC, dequeue_of_empty s.RX_Buffer 0 h]

/-! ## C12: `putcharC` on an idle transmitter -/

/-- C12 (the code at the failing input): in the start-up state (`TxPrimed`
0, TXE interrupt disabled, `TX_Buffer` empty) `putcharC(120)` ends after one
loop attempt with the byte 120 queued, but `TxPrimed` is still 0 and the TXE
interrupt is still disabled; a following handler invocation with TXE active
writes nothing to the transmit register and leaves the byte in the queue. -/
theorem C12_put_on_idle_does_not_arm :
    (putcharC_attempt 120 initSys).1 = false ∧
    (putcharC 1 120 initSys).map
        (fun s => (contents s.TX_Buffer, s.TxPrimed, s.TXEIE)) =
      some ([120], 0, false) ∧
    (putcharC 1 120 initSys).map
        (fun s => ((USART2_IRQHandler { RXNE := false, RDR := 0, TXE := true } s).2.TDR,
          contents (USART2_IRQHandler { RXNE := false, RDR := 0, TXE := true } s).1.TX_Buffer)) =
      some (none, [120]) := by
  decide

/-! ## C13: `TxPrimed` and the TXE interrupt enable -/

theorem primed_step (c : SysCall) (s : Sys)
    (h : (s.TxPrimed = 0 ∧ s.TXEIE = false) ∨ (s.TxPrimed = 1 ∧ s.TXEIE = true)) :
    ((c.perform s).TxPrimed = 0 ∧ (c.perform s).TXEIE = false) ∨
      ((c.perform s).TxPrimed = 1 ∧ (c.perform s).TXEIE = true) := by
  cases c with
  | irq hw =>
    have t2 := rxPath_TxPrimed hw s
    have t3 := rxPath_TXEIE hw s
    show ((txPath hw (rxPath hw s).1).1.TxPrimed = 0 ∧
        (txPath hw (rxPath hw s).1).1.TXEIE = false) ∨
      ((txPath hw (rxPath hw s).1).1.TxPrimed = 1 ∧
        (txPath hw (rxPath hw s).1).1.TXEIE = true)
    generalize (rxPath hw s).1 = s1 at t2 t3
    rw [← t2, ← t3] at h
    unfold txPath
    split
    · dsimp only
      split
      · exact h
      · exact Or.inl ⟨rfl, rfl⟩
    · exact h
  | putAttempt x =>
    show ((putcharC_attempt x s).2.TxPrimed = 0 ∧ (putcharC_attempt x s).2.TXEIE = false) ∨
      ((putcharC_attempt x s).2.TxPrimed = 1 ∧ (putcharC_attempt x s).2.TXEIE = true)
    unfold putcharC_attempt
    dsimp only
    split
    · split
      · exact Or.inr ⟨rfl, rfl⟩
      · exact h
    · exact h
  | getchar =>
    show ((getcharC s).2.TxPrimed = 0 ∧ (getcharC s).2.TXEIE = false) ∨
      ((getcharC s).2.TxPrimed = 1 ∧ (getcharC s).2.TXEIE = true)
    unfold getcharC
    dsimp only
    split <;> exact h

theorem primed_run (cs : List SysCall) :
    ∀ s : Sys,
      ((s.TxPrimed = 0 ∧ s.TXEIE = false) ∨ (s.TxPrimed = 1 ∧ s.TXEIE = true)) →
      (((runSys s cs).TxPrimed = 0 ∧ (runSys s cs).TXEIE = false) ∨
        ((runSys s cs).TxPrimed = 1 ∧ (runSys s cs).TXEIE = true)) := by
  induction cs with
  | nil => intro s h; exact h
  | cons c cs ih => intro s h; exact ih (c.perform s) (primed_step c s h)

/-- C13: in every system state reachable from the start-up state by a
sequence of handler invocations (with any flag values and received bytes),
`putcharC` loop attempts and `getcharC` calls, `TxPrimed` is 1 if and only if
the TXE interrupt is enabled; `TxPrimed` is 0 otherwise. -/
theorem C13_primed_iff_interrupt_enabled (cs : List SysCall) :
    ((runSys initSys cs).TxPrimed = 1 ↔ (runSys initSys cs).TXEIE = true) ∧
    ((runSys initSys cs).TxPrimed = 0 ↔ (runSys initSys cs).TXEIE = false) := by
  rcases primed_run cs initSys (Or.inl ⟨rfl, rfl⟩) with ⟨h1, h2⟩ | ⟨h1, h2⟩ <;>
    simp [h1, h2]

/-! ## C14: `getcharC` -/

/-- C14 (the code at the failing input): in the start-up state, where
`RX_Buffer` is empty, the single `dequeue` of `getcharC` returns 0, the loop
is left and the function ends without executing a `return` statement: no
value, hence no explicit "no data" result, is handed to the caller.  The
state is unchanged. -/
theorem C14_getcharC_on_empty_returns_nothing :
    (dequeue initSys.RX_Buffer 0).1 = 0 ∧
    getcharC initSys = (GetResult.noReturn, initSys) :=
  ⟨by decide, getcharC_of_empty initSys rfl⟩

/-! ## The receive path of the handler -/

theorem mask_eq_mod (x : Nat) : x &&& 0xFF = x % 256 :=
  Nat.and_pow_two_sub_one_eq_mod x 8

theorem enqueue_mod (R : RTQueue) (d : Nat) : enqueue R (d % 256) = enqueue R d := by
  unfold enqueue
  simp [U8]

theorem handler_RX_Buffer (hw : UsartIn) (s : Sys) :
    (USART2_IRQHandler hw s).1.RX_Buffer =
      if hw.RXNE = true then (enqueue s.RX_Buffer hw.RDR).2 else s.RX_Buffer := by
  show (txPath hw (rxPath hw s).1).1.RX_Buffer = _
  rw [txPath_RX_Buffer]
  unfold rxPath
  split
  · show (enqueue s.RX_Buffer (hw.RDR &&& 0xFF)).2 = (enqueue s.RX_Buffer hw.RDR).2
    rw [mask_eq_mod, enqueue_mod]
  · rfl

theorem handler_RxOverflow (hw : UsartIn) (s : Sys) :
    (USART2_IRQHandler hw s).1.RxOverflow =
      if hw.RXNE = true then
        (if (enqueue s.RX_Buffer hw.RDR).1 = 0 then 1 else s.RxOverflow)
      else s.RxOverflow := by
  show (txPath hw (rxPath hw s).1).1.RxOverflow = _
  rw [txPath_RxOverflow]
  unfold rxPath
  split
  · show (if (enqueue s.RX_Buffer (hw.RDR &&& 0xFF)).1 = 0 then 1 else s.RxOverflow) =
      (if (enqueue s.RX_Buffer hw.RDR).1 = 0 then 1 else s.RxOverflow)
    rw [mask_eq_mod, enqueue_mod]
  · rfl

theorem handler_STIR (hw : UsartIn) (s : Sys) :
    (USART2_IRQHandler hw s).2.STIR =
      (hw.RXNE && decide (11 ≤ (USART2_IRQHandler hw s).1.RX_Buffer.sizeRecieve)) := by
  rw [handler_RX_Buffer]
  show (rxPath hw s).2 = _
  unfold rxPath
  split
  next h =>
    show decide (11 ≤ (enqueue s.RX_Buffer (hw.RDR &&& 0xFF)).2.sizeRecieve) = _
    rw [mask_eq_mod, enqueue_mod]
    simp [h]
  next h =>
    simp [h]

/-! ## Receive interrupts followed by `getcharC` calls -/

/-- Enqueues on an empty well-formed queue followed by as many dequeues. -/
theorem enqueueAll_dequeueN (R : RTQueue) (bs : List Nat)
    (hE : R.pRD = R.pWR) (hW : R.pWR < QUEUE_SIZE)
    (hk : bs.length ≤ QUEUE_SIZE - 1) (hb : ∀ b ∈ bs, b < 256) :
    (enqueueAll R bs).1 = List.replicate bs.length 1 ∧
    (dequeueN (enqueueAll R bs).2 bs.length).1 = bs.map (fun b => (1, b)) ∧
    QueueEmpty (dequeueN (enqueueAll R bs).2 bs.length).2 = 1 := by
  have h : InRange R := ⟨hE ▸ hW, hW⟩
  have hc0 : contents R = [] := (contents_eq_nil_iff R h).2 hE
  have h0 : occupancy R = 0 := (occupancy_eq_zero_iff R h).2 hE
  obtain ⟨e1, e2, e3, _⟩ := enqueueAll_contents bs R h (by omega) hb
  rw [hc0, List.nil_append] at e3
  have hocc : occupancy (enqueueAll R bs).2 = bs.length := by
    rw [← length_contents, e3]
  obtain ⟨d1, _, d3⟩ := dequeueN_contents bs.length (enqueueAll R bs).2 e2 hocc
  exact ⟨e1, by rw [d1, e3], (QueueEmpty_eq_one_iff _).2 d3⟩

theorem irqAll_receive (hws : List UsartIn) :
    ∀ s : Sys, (∀ hw ∈ hws, hw.RXNE = true) →
      (irqAll s hws).2.RX_Buffer =
        (enqueueAll s.RX_Buffer (hws.map fun hw => hw.RDR)).2 ∧
      ((enqueueAll s.RX_Buffer (hws.map fun hw => hw.RDR)).1 =
          List.replicate hws.length 1 →
        (irqAll s hws).2.RxOverflow = s.RxOverflow) := by
  induction hws with
  | nil =>
    intro s _
    exact ⟨rfl, fun _ => rfl⟩
  | cons hw hws ih =>
    intro s h
    have h1 : hw.RXNE = true := h hw (List.mem_cons_self hw hws)
    have hb := handler_RX_Buffer hw s
    have ho := handler_RxOverflow hw s
    simp only [h1, if_true] at hb ho
    obtain ⟨r1, r2⟩ := ih (USART2_IRQHandler hw s).1
      (fun x hx => h x (List.mem_cons_of_mem hw hx))
    rw [hb] at r1 r2
    refine ⟨r1, ?_⟩
    intro hall
    simp only [List.map_cons, enqueueAll, List.length_cons, List.replicate_succ,
      List.cons.injEq] at hall
    show (irqAll (USART2_IRQHandler hw s).1 hws).2.RxOverflow = s.RxOverflow
    rw [r2 hall.2, ho, hall.1]
    simp

theorem getcharN_dequeueN (k : Nat) :
    ∀ s : Sys,
      (getcharN s k).1 =
        (dequeueN s.RX_Buffer k).1.map
          (fun p => if p.1 ≠ 0 then GetResult.value p.2 else GetResult.noReturn) ∧
      (getcharN s k).2.RX_Buffer = (dequeueN s.RX_Buffer k).2 ∧
      (getcharN s k).2.RxOverflow = s.RxOverflow := by
  induction k with
  | zero =>
    intro s
    exact ⟨rfl, rfl, rfl⟩
  | succ k ih =>
    intro s
    have g1 : (getcharC s).1 =
        if (dequeue s.RX_Buffer 0).1 ≠ 0 then GetResult.value (dequeue s.RX_Buffer 0).2.1
        else GetResult.noReturn := by
      unfold getcharC
      dsimp only
      split <;> rfl
    have g2 : (getcharC s).2.RX_Buffer = (dequeue s.RX_Buffer 0).2.2 := by
      unfold getcharC
      dsimp only
      split <;> rfl
    have g3 : (getcharC s).2.RxOverflow = s.RxOverflow := by
      unfold getcharC
      dsimp only
      split <;> rfl
    obtain ⟨r1, r2, r3⟩ := ih (getcharC s).2
    rw [g2] at r1 r2
    refine ⟨?_, r2, r3.trans g3⟩
    simp only [getcharN, dequeueN, List.map_cons, r1, g1]

/-! ## C15: receive-to-foreground data flow -/

/-- C15: starting from a state whose `RX_Buffer` is empty and well-formed
(`pRD = pWR < QUEUE_SIZE`), for every list of at most `QUEUE_SIZE - 1` handler
invocations with RXNE active, each delivering a byte (with any TXE flag), as
many `getcharC` calls afterwards return the delivered bytes in the same
order; `RX_Buffer` is empty at the end, and `RxOverflow` has its initial value
after every invocation and after every `getcharC` call. -/
theorem C15_receive_data_flow (s : Sys) (hws : List UsartIn)
    (hE : s.RX_Buffer.pRD = s.RX_Buffer.pWR) (hW : s.RX_Buffer.pWR < QUEUE_SIZE)
    (hk : hws.length ≤ QUEUE_SIZE - 1)
    (hrx : ∀ hw ∈ hws, hw.RXNE = true ∧ hw.RDR < 256) :
    (getcharN (irqAll s hws).2 hws.length).1 =
      hws.map (fun hw => GetResult.value hw.RDR) ∧
    QueueEmpty (getcharN (irqAll s hws).2 hws.length).2.RX_Buffer = 1 ∧
    (∀ j, (irqAll s (hws.take j)).2.RxOverflow = s.RxOverflow) ∧
    (∀ j, (getcharN (irqAll s hws).2 j).2.RxOverflow = s.RxOverflow) := by
  have hbytes : ∀ b ∈ hws.map (fun hw => hw.RDR), b < 256 := by
    intro b hb
    obtain ⟨hw, hmem, rfl⟩ := List.mem_map.1 hb
    exact (hrx hw hmem).2
  have hlen : (hws.map fun hw => hw.RDR).length = hws.length := List.length_map _ _
  obtain ⟨c1, c2, c3⟩ := enqueueAll_dequeueN s.RX_Buffer (hws.map fun hw => hw.RDR) hE hW
    (by rw [hlen]; exact hk) hbytes
  obtain ⟨i1, i2⟩ := irqAll_receive hws s (fun hw h => (hrx hw h).1)
  rw [hlen] at c1 c2 c3
  have hov : (irqAll s hws).2.RxOverflow = s.RxOverflow := i2 c1
  obtain ⟨g1, g2, _⟩ := getcharN_dequeueN hws.length (irqAll s hws).2
  rw [i1] at g1 g2
  refine ⟨?_, ?_, ?_, ?_⟩
  · rw [g1, c2, List.map_map, List.map_map]
    apply List.map_congr_left
    intro hw _
    simp
  · rw [g2]
    exact c3
  · intro j
    have hsub : ∀ hw ∈ hws.take j, hw.RXNE = true ∧ hw.RDR < 256 :=
      fun hw h => hrx hw (List.mem_of_mem_take h)
    have hbj : ∀ b ∈ (hws.take j).map (fun hw => hw.RDR), b < 256 := by
      intro b hb
      obtain ⟨hw, hmem, rfl⟩ := List.mem_map.1 hb
      exact (hsub hw hmem).2
    have hlj : ((hws.take j).map fun hw => hw.RDR).length = (hws.take j).length :=
      List.length_map _ _
    have hle : (hws.take j).length ≤ QUEUE_SIZE - 1 :=
      Nat.le_trans (by rw [List.length_take]; exact Nat.min_le_right _ _) hk
    obtain ⟨e1, _, _⟩ := enqueueAll_dequeueN s.RX_Buffer ((hws.take j).map fun hw => hw.RDR) hE hW
      (by rw [hlj]; exact hle) hbj
    rw [hlj] at e1
    exact (irqAll_receive (hws.take j) s (fun hw h => (hsub hw h).1)).2 e1
  · intro j
    rw [(getcharN_dequeueN j (irqAll s hws).2).2.2]
    exact hov

/-- C15 witness: three bytes received from cell 510 on (the indices wrap
inside the run) and read back by three `getcharC` calls. -/
theorem C15_receive_data_flow_witness :
    (getcharN (irqAll sysRxAt510 threeRx).2 threeRx.length).1 =
      threeRx.map (fun hw => GetResult.value hw.RDR) ∧
    QueueEmpty (getcharN (irqAll sysRxAt510 threeRx).2 threeRx.length).2.RX_Buffer = 1 ∧
    (∀ j, (irqAll sysRxAt510 (threeRx.take j)).2.RxOverflow = sysRxAt510.RxOverflow) ∧
    (∀ j, (getcharN (irqAll sysRxAt510 threeRx).2 j).2.RxOverflow =
      sysRxAt510.RxOverflow) :=
  C15_receive_data_flow sysRxAt510 threeRx (by decide) (by decide) (by decide) (by decide)

/-! ## C16: the watermark signal -/

/-- C16: for every system state and one invocation of `USART2_IRQHandler`,
`EXTI1_IRQn` is written to `NVIC->STIR` if and only if RXNE is active and
`RX_Buffer.sizeRecieve`, after the enqueue attempt, is at least 11; the
counter after the enqueue attempt is the counter of the state after the
invocation. -/
theorem C16_watermark_signal (hw : UsartIn) (s : Sys) :
    ((USART2_IRQHandler hw s).2.STIR = true ↔
      (hw.RXNE = true ∧
        11 ≤ (enqueue s.RX_Buffer (hw.RDR &&& 0xFF)).2.sizeRecieve)) ∧
    ((USART2_IRQHandler hw s).2.STIR = true ↔
      (hw.RXNE = true ∧ 11 ≤ (USART2_IRQHandler hw s).1.RX_Buffer.sizeRecieve)) ∧
    ((USART2_IRQHandler hw s).2.STIR = false ↔
      (hw.RXNE = false ∨ (USART2_IRQHandler hw s).1.RX_Buffer.sizeRecieve < 11)) := by
  have h := handler_STIR hw s
  have hb := handler_RX_Buffer hw s
  refine ⟨?_, ?_, ?_⟩
  · rw [h, hb, mask_eq_mod, enqueue_mod]
    cases hr : hw.RXNE <;> simp
  · rw [h]
    simp
  · rw [h]
    cases hr : hw.RXNE <;> simp

/-! ## C17: the watermark signal over a run of receive interrupts -/

/-- One receive interrupt on a queue whose counter equals its occupancy: the
counter still equals the occupancy, and it is at least 11 afterwards exactly
when it was at least 10 before. -/
theorem enqueue_counter (R : RTQueue) (d : Nat) (h : InRange R)
    (hs : R.sizeRecieve = occupancy R) :
    (enqueue R d).2.sizeRecieve = occupancy (enqueue R d).2 ∧
    (11 ≤ (enqueue R d).2.sizeRecieve ↔ 10 ≤ R.sizeRecieve) ∧
    (∀ i, 10 ≤ (enqueue R d).2.sizeRecieve + i ↔ 10 ≤ R.sizeRecieve + (i + 1)) := by
  have hlt := occupancy_lt R
  by_cases hF : (R.pWR + 1) % QUEUE_SIZE = R.pRD
  · have ho := (full_iff_occupancy R h).1 hF
    rw [enqueue_of_full R d hF]
    unfold QUEUE_SIZE at ho hlt
    refine ⟨hs, ?_, ?_⟩
    · show 11 ≤ R.sizeRecieve ↔ 10 ≤ R.sizeRecieve
      omega
    · intro i
      show 10 ≤ R.sizeRecieve + i ↔ 10 ≤ R.sizeRecieve + (i + 1)
      omega
  · have hocc := enqueue_occupancy R d h hF
    have hsz : (enqueue R d).2.sizeRecieve = R.sizeRecieve + 1 := by
      rw [enqueue_of_not_full R d hF]
      show (R.sizeRecieve + 1) % U16 = R.sizeRecieve + 1
      unfold U16
      unfold QUEUE_SIZE at hlt
      omega
    refine ⟨by omega, by omega, ?_⟩
    intro i
    omega

theorem irqAll_STIR (hws : List UsartIn) :
    ∀ s : Sys, InRange s.RX_Buffer → s.RX_Buffer.sizeRecieve = occupancy s.RX_Buffer →
      (∀ hw ∈ hws, hw.RXNE = true) →
      (irqAll s hws).1.map (fun o => o.STIR) =
        (List.range hws.length).map (fun i => decide (10 ≤ s.RX_Buffer.sizeRecieve + i)) := by
  induction hws with
  | nil =>
    intro s _ _ _
    rfl
  | cons hw hws ih =>
    intro s h hs hrx
    have h1 : hw.RXNE = true := hrx hw (List.mem_cons_self hw hws)
    have hb := handler_RX_Buffer hw s
    have hst := handler_STIR hw s
    simp only [h1, if_true, Bool.true_and] at hb hst
    obtain ⟨e1, e2, e3⟩ := enqueue_counter s.RX_Buffer hw.RDR h hs
    have r := ih (USART2_IRQHandler hw s).1
      (by rw [hb]; exact enqueue_inRange s.RX_Buffer hw.RDR h)
      (by rw [hb]; exact e1)
      (fun x hx => hrx x (List.mem_cons_of_mem hw hx))
    simp only [irqAll, List.map_cons, List.length_cons, List.range_succ_eq_map,
      List.map_map, r, hst, hb]
    congr 1
    · simp only [Nat.add_zero, decide_eq_decide]
      exact e2
    · apply List.map_congr_left
      intro i _
      simp only [Function.comp, Nat.succ_eq_add_one, decide_eq_decide]
      exact e3 i

/-- C17 (as stated, refuted): in a run of twelve receive interrupts from the
start-up state the trigger is raised by two invocations, the eleventh (the
counter goes from 10 to 11) and again the twelfth (from 11 to 12). -/
theorem C17_raised_twice :
    (irqAll initSys twelveRx).1.map (fun o => o.STIR) =
      [false, false, false, false, false, false, false, false, false, false, true, true] ∧
    ((irqAll initSys twelveRx).1.map (fun o => o.STIR)).count true = 2 ∧
    (irqAll initSys (twelveRx.take 11)).2.RX_Buffer.sizeRecieve = 11 ∧
    (irqAll initSys twelveRx).2.RX_Buffer.sizeRecieve = 12 := by
  decide

/-- C17 (amended): for every run of consecutive receive interrupts (RXNE
active, nothing in between) starting from a state whose `RX_Buffer` is empty
and well-formed with `sizeRecieve = 0`, the trigger is raised by no
invocation before the eleventh, by the eleventh (the one in which
`sizeRecieve` goes from 10 to 11), and by every later invocation of the
run. -/
theorem C17_raised_from_the_eleventh_on (s : Sys) (hws : List UsartIn)
    (hE : s.RX_Buffer.pRD = s.RX_Buffer.pWR) (hW : s.RX_Buffer.pWR < QUEUE_SIZE)
    (h0 : s.RX_Buffer.sizeRecieve = 0) (hrx : ∀ hw ∈ hws, hw.RXNE = true) :
    (irqAll s hws).1.map (fun o => o.STIR) =
      (List.range hws.length).map (fun i => decide (10 ≤ i)) := by
  have h : InRange s.RX_Buffer := ⟨hE ▸ hW, hW⟩
  have ho : occupancy s.RX_Buffer = 0 := (occupancy_eq_zero_iff s.RX_Buffer h).2 hE
  rw [irqAll_STIR hws s h (by rw [h0, ho]) hrx, h0]
  simp

/-- C17 witness: the amended statement on twelve receive interrupts from the
start-up state. -/
theorem C17_raised_from_the_eleventh_on_witness :
    (irqAll initSys twelveRx).1.map (fun o => o.STIR) =
      (List.range twelveRx.length).map (fun i => decide (10 ≤ i)) :=
  C17_raised_from_the_eleventh_on initSys twelveRx (by decide) (by decide) (by decide)
    (by decide)

/-! ## C18: `RxOverflow` is sticky -/

theorem enqueue_fails_iff (R : RTQueue) (d : Nat) :
    (enqueue R d).1 = 0 ↔ QueueFull R = 1 := by
  rw [QueueFull_eq_one_iff]
  by_cases hF : (R.pWR + 1) % QUEUE_SIZE = R.pRD
  · simp [enqueue_of_full R d hF, hF]
  · simp [enqueue_of_not_full R d hF, hF]

theorem putcharC_attempt_RX (c : Int) (s : Sys) :
    (putcharC_attempt c s).2.RX_Buffer = s.RX_Buffer ∧
    (putcharC_attempt c s).2.RxOverflow = s.RxOverflow := by
  unfold putcharC_attempt
  dsimp only
  split
  · split <;> exact ⟨rfl, rfl⟩
  · exact ⟨rfl, rfl⟩

theorem putcharC_RX (fuel : Nat) (c : Int) :
    ∀ s s1 : Sys, putcharC fuel c s = some s1 →
      s1.RX_Buffer = s.RX_Buffer ∧ s1.RxOverflow = s.RxOverflow := by
  induction fuel with
  | zero =>
    intro s s1 h
    simp [putcharC] at h
  | succ fuel ih =>
    intro s s1 h
    have ha := putcharC_attempt_RX c s
    unfold putcharC at h
    split at h
    · obtain ⟨r1, r2⟩ := ih (putcharC_attempt c s).2 s1 h
      exact ⟨r1.trans ha.1, r2.trans ha.2⟩
    · injection h with h
      rw [← h]
      exact ha

theorem getcharC_others (s : Sys) :
    (getcharC s).2.TX_Buffer = s.TX_Buffer ∧ (getcharC s).2.TxPrimed = s.TxPrimed ∧
    (getcharC s).2.RxOverflow = s.RxOverflow ∧ (getcharC s).2.TXEIE = s.TXEIE := by
  unfold getcharC
  dsimp only
  split <;> exact ⟨rfl, rfl, rfl, rfl⟩

theorem overflow_step (c : SysCall) (s : Sys) (h : s.RxOverflow = 1) :
    (c.perform s).RxOverflow = 1 := by
  cases c with
  | irq hw =>
    show (USART2_IRQHandler hw s).1.RxOverflow = 1
    rw [handler_RxOverflow, h]
    split
    · split <;> rfl
    · rfl
  | putAttempt x =>
    show (putcharC_attempt x s).2.RxOverflow = 1
    rw [(putcharC_attempt_RX x s).2, h]
  | getchar =>
    show (getcharC s).2.RxOverflow = 1
    rw [(getcharC_others s).2.2.1, h]

theorem overflow_run (cs : List SysCall) :
    ∀ s : Sys, s.RxOverflow = 1 → (runSys s cs).RxOverflow = 1 := by
  induction cs with
  | nil => intro s h; exact h
  | cons c cs ih => intro s h; exact ih (c.perform s) (overflow_step c s h)

/-- C18: one invocation of `USART2_IRQHandler` sets `RxOverflow` to 1 when
RXNE is active and `RX_Buffer` is full and leaves it as it was otherwise;
`getcharC`, a loop attempt of `putcharC` and a whole run of `putcharC` leave
it as it was; hence after any sequence of handler invocations, `putcharC`
attempts and `getcharC` calls from a state with `RxOverflow = 1`, `RxOverflow`
is still 1. -/
theorem C18_overflow_sticky (hw : UsartIn) (s : Sys) (c : Int) (fuel : Nat)
    (cs : List SysCall) :
    (USART2_IRQHandler hw s).1.RxOverflow =
      (if hw.RXNE = true ∧ QueueFull s.RX_Buffer = 1 then 1 else s.RxOverflow) ∧
    (getcharC s).2.RxOverflow = s.RxOverflow ∧
    (putcharC_attempt c s).2.RxOverflow = s.RxOverflow ∧
    (∀ s1, putcharC fuel c s = some s1 → s1.RxOverflow = s.RxOverflow) ∧
    (s.RxOverflow = 1 → (runSys s cs).RxOverflow = 1) := by
  refine ⟨?_, (getcharC_others s).2.2.1, (putcharC_attempt_RX c s).2,
    fun s1 h => (putcharC_RX fuel c s s1 h).2, overflow_run cs s⟩
  have hf := enqueue_fails_iff s.RX_Buffer hw.RDR
  rw [handler_RxOverflow]
  by_cases h1 : hw.RXNE = true <;> by_cases h2 : QueueFull s.RX_Buffer = 1
  · rw [if_pos h1, if_pos (hf.2 h2), if_pos ⟨h1, h2⟩]
  · rw [if_pos h1, if_neg (fun h => h2 (hf.1 h)), if_neg (fun h => h2 h.2)]
  · rw [if_neg h1, if_neg (fun h => h1 h.1)]
  · rw [if_neg h1, if_neg (fun h => h1 h.1)]

/-- C18 witness: from the state `sysOverflowed` (flag set, `RX_Buffer` full) a
`getcharC` call, a receive interrupt, a `putcharC` attempt and a transmit
interrupt leave `RxOverflow` at 1. -/
theorem C18_overflow_sticky_witness :
    (runSys sysOverflowed
      [SysCall.getchar, SysCall.irq (rxIrq 65 true), SysCall.putAttempt 120,
        SysCall.irq { RXNE := false, RDR := 0, TXE := true }]).RxOverflow = 1 :=
  (C18_overflow_sticky (rxIrq 65 true) sysOverflowed 120 1
    [SysCall.getchar, SysCall.irq (rxIrq 65 true), SysCall.putAttempt 120,
      SysCall.irq { RXNE := false, RDR := 0, TXE := true }]).2.2.2.2 rfl

/-! ## C19: `putcharC` -/

theorem QueueFull_zero_or_one (R : RTQueue) : QueueFull R = 0 ∨ QueueFull R = 1 := by
  unfold QueueFull
  split
  · exact Or.inr rfl
  · exact Or.inl rfl

theorem putcharC_attempt_fails (c : Int) (s : Sys) (h : QueueFull s.TX_Buffer = 1) :
    (putcharC_attempt c s).1 = true ∧
    (putcharC_attempt c s).2.TX_Buffer = s.TX_Buffer ∧
    (s.TxPrimed = 0 →
      (putcharC_attempt c s).2.TxPrimed = 1 ∧ (putcharC_attempt c s).2.TXEIE = true) ∧
    (s.TxPrimed ≠ 0 →
      (putcharC_attempt c s).2.TxPrimed = s.TxPrimed ∧
      (putcharC_attempt c s).2.TXEIE = s.TXEIE) := by
  have hF := (QueueFull_eq_one_iff s.TX_Buffer).1 h
  have ha := putcharC_attempt_of_full c s hF
  by_cases hp : s.TxPrimed = 0
  · rw [ha, if_pos hp]
    exact ⟨rfl, rfl, fun _ => ⟨rfl, rfl⟩, fun h => absurd hp h⟩
  · rw [ha, if_neg hp]
    exact ⟨rfl, rfl, fun h => absurd h hp, fun _ => ⟨rfl, rfl⟩⟩

theorem putcharC_attempt_succeeds (c : Int) (s : Sys) (h : QueueFull s.TX_Buffer = 0) :
    (putcharC_attempt c s).1 = false := by
  rw [putcharC_attempt_of_not_full c s ((QueueFull_eq_zero_iff s.TX_Buffer).1 h)]

/-- Without interrupts a full `TX_Buffer` stays full, and the loop of
`putcharC` does not end within any number of attempts. -/
theorem putcharC_of_full (c : Int) (fuel : Nat) :
    ∀ s : Sys, QueueFull s.TX_Buffer = 1 → putcharC fuel c s = none := by
  induction fuel with
  | zero =>
    intro s _
    rfl
  | succ fuel ih =>
    intro s h
    obtain ⟨a1, a2, _, _⟩ := putcharC_attempt_fails c s h
    unfold putcharC
    rw [if_pos a1]
    exact ih (putcharC_attempt c s).2 (by rw [a2]; exact h)

theorem putcharC_of_not_full (c : Int) (fuel : Nat) (s : Sys)
    (h : QueueFull s.TX_Buffer = 0) :
    putcharC (fuel + 1) c s = some (putcharC_attempt c s).2 := by
  unfold putcharC
  rw [putcharC_attempt_succeeds c s h]
  simp

theorem putcharC_irq_of_not_full (c : Int) (hws : List UsartIn) (s : Sys)
    (h : QueueFull s.TX_Buffer = 0) :
    putcharC_irq hws c s = some (putcharC_attempt c s).2 := by
  have ha := putcharC_attempt_succeeds c s h
  cases hws with
  | nil =>
    unfold putcharC_irq
    rw [ha]
    simp
  | cons hw hws =>
    unfold putcharC_irq
    rw [ha]
    simp

/-- A failed attempt on a full `TX_Buffer`, then a handler invocation with TXE
active: the handler sends the oldest byte and takes it from the queue, and
the next attempt succeeds. -/
theorem putcharC_irq_drain (c : Int) (s : Sys) (hw : UsartIn) (rest : List UsartIn)
    (hwf : InRange s.TX_Buffer) (hfull : QueueFull s.TX_Buffer = 1)
    (hp : s.TxPrimed = 0 ∨ s.TXEIE = true) (htxe : hw.TXE = true) :
    (USART2_IRQHandler hw (putcharC_attempt c s).2).2.TDR =
      some (s.TX_Buffer.q s.TX_Buffer.pRD) ∧
    putcharC_irq (hw :: rest) c s =
      some (putcharC_attempt c (USART2_IRQHandler hw (putcharC_attempt c s).2).1).2 ∧
    s.TX_Buffer.q s.TX_Buffer.pRD ::
        contents (putcharC_attempt c
          (USART2_IRQHandler hw (putcharC_attempt c s).2).1).2.TX_Buffer =
      contents s.TX_Buffer ++ [toU8 c] := by
  obtain ⟨a1, a2, a3, a4⟩ := putcharC_attempt_fails c s hfull
  have hen : (putcharC_attempt c s).2.TXEIE = true := by
    by_cases h0 : s.TxPrimed = 0
    · exact (a3 h0).2
    · rcases hp with hp | hp
      · exact absurd hp h0
      · rw [(a4 h0).2, hp]
  have hF := (QueueFull_eq_one_iff s.TX_Buffer).1 hfull
  have hocc := (full_iff_occupancy s.TX_Buffer hwf).1 hF
  have hne : s.TX_Buffer.pRD ≠ s.TX_Buffer.pWR := by
    intro he
    have := (occupancy_eq_zero_iff s.TX_Buffer hwf).2 he
    rw [this] at hocc
    revert hocc
    decide
  have hdc := dequeue_contents s.TX_Buffer 0 hwf hne
  have hdo := dequeue_occupancy s.TX_Buffer 0 hwf hne
  have hdr := dequeue_inRange s.TX_Buffer 0 hwf
  -- the handler invocation after the failed attempt
  have t1 := rxPath_TX_Buffer hw (putcharC_attempt c s).2
  have t3 := rxPath_TXEIE hw (putcharC_attempt c s).2
  rw [a2] at t1
  rw [hen] at t3
  have hsend := txPath_send hw (rxPath hw (putcharC_attempt c s).2).1 htxe t3
    (by rw [t1]; exact hne)
  have hTDR : (USART2_IRQHandler hw (putcharC_attempt c s).2).2.TDR =
      some (s.TX_Buffer.q s.TX_Buffer.pRD) := by
    show (txPath hw (rxPath hw (putcharC_attempt c s).2).1).2 = _
    rw [hsend, t1]
  have hTX : (USART2_IRQHandler hw (putcharC_attempt c s).2).1.TX_Buffer =
      (dequeue s.TX_Buffer 0).2.2 := by
    show (txPath hw (rxPath hw (putcharC_attempt c s).2).1).1.TX_Buffer = _
    rw [hsend, t1]
  have hstep : putcharC_irq (hw :: rest) c s =
      putcharC_irq rest c (USART2_IRQHandler hw (putcharC_attempt c s).2).1 := by
    conv => lhs; unfold putcharC_irq
    rw [if_pos a1]
  generalize (USART2_IRQHandler hw (putcharC_attempt c s).2).1 = s2 at hTX hstep ⊢
  have hwf2 : InRange s2.TX_Buffer := by rw [hTX]; exact hdr
  have hnf2 : (s2.TX_Buffer.pWR + 1) % QUEUE_SIZE ≠ s2.TX_Buffer.pRD := by
    rw [Ne, full_iff_occupancy s2.TX_Buffer hwf2, hTX]
    unfold QUEUE_SIZE at hocc ⊢
    omega
  have hq2 : QueueFull s2.TX_Buffer = 0 := (QueueFull_eq_zero_iff s2.TX_Buffer).2 hnf2
  have hc2 := enqueue_contents s2.TX_Buffer (toU8 c) hwf2 hnf2 (toU8_lt c)
  refine ⟨hTDR, ?_, ?_⟩
  · rw [hstep]
    exact putcharC_irq_of_not_full c rest s2 hq2
  · rw [putcharC_attempt_of_not_full c s2 hnf2]
    show s.TX_Buffer.q s.TX_Buffer.pRD :: contents (enqueue s2.TX_Buffer (toU8 c)).2 = _
    rw [hc2, hdc, hTX]
    rfl

/-- C19: when `TX_Buffer` is well-formed and not full, `putcharC(c)` ends
after a single loop attempt, with exactly the byte `c mod 256` appended at
the tail of `TX_Buffer`; when `TX_Buffer` is full, a loop attempt fails (the
loop goes on), leaves `TX_Buffer` as it was and, if `TxPrimed` was 0, sets
`TxPrimed` to 1 and enables the TXE interrupt, and otherwise changes neither;
`RX_Buffer` and `RxOverflow` are unchanged by an attempt and by the whole
call.  The loop retries until `enqueue` succeeds: after a failed attempt the
run goes on with a further attempt; with no interrupt in between the queue
stays full and the run ends within no number of attempts, so a run ends
exactly when it has at least one attempt and its first `enqueue` succeeds;
with the handler invoked between attempts, a full well-formed queue whose
interrupt is or becomes enabled is drained by one byte when TXE is active (the
oldest byte is written to the transmit register) and the retry then succeeds
and appends `c mod 256`. -/
theorem C19_putcharC (c : Int) (s : Sys) (fuel : Nat) (hw : UsartIn)
    (rest : List UsartIn) :
    (InRange s.TX_Buffer → QueueFull s.TX_Buffer = 0 →
      (putcharC_attempt c s).1 = false ∧
      putcharC (fuel + 1) c s = some (putcharC_attempt c s).2 ∧
      contents (putcharC_attempt c s).2.TX_Buffer = contents s.TX_Buffer ++ [toU8 c] ∧
      (toU8 c : Int) = c % 256) ∧
    (QueueFull s.TX_Buffer = 1 →
      (putcharC_attempt c s).1 = true ∧
      (putcharC_attempt c s).2.TX_Buffer = s.TX_Buffer ∧
      (s.TxPrimed = 0 →
        (putcharC_attempt c s).2.TxPrimed = 1 ∧ (putcharC_attempt c s).2.TXEIE = true) ∧
      (s.TxPrimed ≠ 0 →
        (putcharC_attempt c s).2.TxPrimed = s.TxPrimed ∧
        (putcharC_attempt c s).2.TXEIE = s.TXEIE)) ∧
    (putcharC_attempt c s).2.RX_Buffer = s.RX_Buffer ∧
    (putcharC_attempt c s).2.RxOverflow = s.RxOverflow ∧
    (∀ s1, putcharC fuel c s = some s1 →
      s1.RX_Buffer = s.RX_Buffer ∧ s1.RxOverflow = s.RxOverflow) ∧
    (QueueFull s.TX_Buffer = 1 →
      putcharC (fuel + 1) c s = putcharC fuel c (putcharC_attempt c s).2 ∧
      QueueFull (putcharC_attempt c s).2.TX_Buffer = 1 ∧
      putcharC fuel c s = none ∧
      putcharC_irq [] c s = none ∧
      putcharC_irq (hw :: rest) c s =
        putcharC_irq rest c (USART2_IRQHandler hw (putcharC_attempt c s).2).1) ∧
    (∀ s1, putcharC fuel c s = some s1 ↔
      (0 < fuel ∧ QueueFull s.TX_Buffer = 0 ∧ s1 = (putcharC_attempt c s).2)) ∧
    (QueueFull s.TX_Buffer = 0 →
      putcharC_irq (hw :: rest) c s = some (putcharC_attempt c s).2) ∧
    (InRange s.TX_Buffer → QueueFull s.TX_Buffer = 1 →
      (s.TxPrimed = 0 ∨ s.TXEIE = true) → hw.TXE = true →
      (USART2_IRQHandler hw (putcharC_attempt c s).2).2.TDR =
        some (s.TX_Buffer.q s.TX_Buffer.pRD) ∧
      putcharC_irq (hw :: rest) c s =
        some (putcharC_attempt c (USART2_IRQHandler hw (putcharC_attempt c s).2).1).2 ∧
      s.TX_Buffer.q s.TX_Buffer.pRD ::
          contents (putcharC_attempt c
            (USART2_IRQHandler hw (putcharC_attempt c s).2).1).2.TX_Buffer =
        contents s.TX_Buffer ++ [toU8 c]) := by
  refine ⟨?_, putcharC_attempt_fails c s, (putcharC_attempt_RX c s).1,
    (putcharC_attempt_RX c s).2, putcharC_RX fuel c s, ?_, ?_,
    putcharC_irq_of_not_full c (hw :: rest) s, putcharC_irq_drain c s hw rest⟩
  · intro hwf hnf
    have hF := (QueueFull_eq_zero_iff s.TX_Buffer).1 hnf
    have ha := putcharC_attempt_of_not_full c s hF
    have hc := enqueue_contents s.TX_Buffer (toU8 c) hwf hF (toU8_lt c)
    refine ⟨by rw [ha], putcharC_of_not_full c fuel s hnf, ?_, toU8_eq c⟩
    rw [ha]
    exact hc
  · intro hfull
    obtain ⟨a1, a2, _, _⟩ := putcharC_attempt_fails c s hfull
    refine ⟨?_, by rw [a2]; exact hfull, putcharC_of_full c fuel s hfull, ?_, ?_⟩
    · show putcharC (fuel + 1) c s = _
      conv => lhs; unfold putcharC
      rw [if_pos a1]
    · unfold putcharC_irq
      rw [if_pos a1]
    · conv => lhs; unfold putcharC_irq
      rw [if_pos a1]
  · intro s1
    constructor
    · intro h
      rcases QueueFull_zero_or_one s.TX_Buffer with h0 | h1
      · cases fuel with
        | zero => simp [putcharC] at h
        | succ n =>
          rw [putcharC_of_not_full c n s h0] at h
          injection h with h
          exact ⟨Nat.succ_pos n, h0, h.symm⟩
      · rw [putcharC_of_full c fuel s h1] at h
        exact absurd h (by simp)
    · rintro ⟨hpos, h0, rfl⟩
      obtain ⟨n, rfl⟩ := Nat.exists_eq_succ_of_ne_zero (Nat.pos_iff_ne_zero.1 hpos)
      exact putcharC_of_not_full c n s h0

/-- C19 witness: `putcharC(376)` in the start-up state queues the byte 120 in
one attempt; in the state `sysTxFull` an attempt fails, leaves `TX_Buffer` as
it was, sets `TxPrimed` and enables the TXE interrupt, and three attempts
without interrupts do not end the loop; with a handler invocation (TXE
active) after the failed attempt the oldest byte 3 is sent and the retry
queues 120 behind the other bytes. -/
theorem C19_putcharC_witness :
    ((putcharC_attempt 376 initSys).1 = false ∧
      putcharC (0 + 1) 376 initSys = some (putcharC_attempt 376 initSys).2 ∧
      contents (putcharC_attempt 376 initSys).2.TX_Buffer =
        contents initSys.TX_Buffer ++ [toU8 376] ∧
      (toU8 376 : Int) = 376 % 256) ∧
    ((putcharC_attempt 376 sysTxFull).1 = true ∧
      (putcharC_attempt 376 sysTxFull).2.TX_Buffer = sysTxFull.TX_Buffer ∧
      (putcharC_attempt 376 sysTxFull).2.TxPrimed = 1 ∧
      (putcharC_attempt 376 sysTxFull).2.TXEIE = true) ∧
    putcharC 3 376 sysTxFull = none ∧
    ((USART2_IRQHandler { RXNE := false, RDR := 0, TXE := true }
        (putcharC_attempt 376 sysTxFull).2).2.TDR =
        some (sysTxFull.TX_Buffer.q sysTxFull.TX_Buffer.pRD) ∧
      putcharC_irq [{ RXNE := false, RDR := 0, TXE := true }] 376 sysTxFull =
        some (putcharC_attempt 376
          (USART2_IRQHandler { RXNE := false, RDR := 0, TXE := true }
            (putcharC_attempt 376 sysTxFull).2).1).2 ∧
      sysTxFull.TX_Buffer.q sysTxFull.TX_Buffer.pRD ::
          contents (putcharC_attempt 376
            (USART2_IRQHandler { RXNE := false, RDR := 0, TXE := true }
              (putcharC_attempt 376 sysTxFull).2).1).2.TX_Buffer =
        contents sysTxFull.TX_Buffer ++ [toU8 376]) :=
  ⟨(C19_putcharC 376 initSys 0 { RXNE := false, RDR := 0, TXE := true } []).1
      initQueue_inRange (by decide),
    ⟨((C19_putcharC 376 sysTxFull 0 { RXNE := false, RDR := 0, TXE := true } []).2.1
        (by decide)).1,
      ((C19_putcharC 376 sysTxFull 0 { RXNE := false, RDR := 0, TXE := true } []).2.1
        (by decide)).2.1,
      ((C19_putcharC 376 sysTxFull 0 { RXNE := false, RDR := 0, TXE := true } []).2.1
        (by decide)).2.2.1 rfl⟩,
    ((C19_putcharC 376 sysTxFull 3 { RXNE := false, RDR := 0, TXE := true } []).2.2.2.2.2.1
      (by decide)).2.2.1,
    (C19_putcharC 376 sysTxFull 0 { RXNE := false, RDR := 0, TXE := true }
      []).2.2.2.2.2.2.2.2 (by unfold InRange; decide) (by decide) (Or.inl rfl) rfl⟩

/-! ## C20: the index-range invariant -/

/-- C20: if `pRD < QUEUE_SIZE` and `pWR < QUEUE_SIZE` before an `enqueue` or
`dequeue` call then both hold after it, whether the call succeeds or fails,
and the cell the call accesses (`q[pWR]` in `enqueue`, `q[pRD]` in `dequeue`)
is a cell of the array; in every queue reachable from the initial queue both
indices are below `QUEUE_SIZE` and the cell accessed by a further `enqueue`
or `dequeue` is a cell of the array. -/
theorem C20_index_range (R : RTQueue) (d o : Nat) (cs : List QueueCall)
    (h : InRange R) :
    (InRange (enqueue R d).2 ∧ InRange (dequeue R o).2.2) ∧
    ((∀ i, enqueueIndex R = some i → i < QUEUE_SIZE) ∧
      (∀ i, dequeueIndex R = some i → i < QUEUE_SIZE)) ∧
    ((runCalls initQueue cs).pRD < QUEUE_SIZE ∧ (runCalls initQueue cs).pWR < QUEUE_SIZE) ∧
    ((∀ i, enqueueIndex (runCalls initQueue cs) = some i → i < QUEUE_SIZE) ∧
      (∀ i, dequeueIndex (runCalls initQueue cs) = some i → i < QUEUE_SIZE)) := by
  have access : ∀ Q : RTQueue, InRange Q →
      (∀ i, enqueueIndex Q = some i → i < QUEUE_SIZE) ∧
      (∀ i, dequeueIndex Q = some i → i < QUEUE_SIZE) := by
    intro Q hQ
    constructor
    · intro i hi
      unfold enqueueIndex at hi
      split at hi
      · exact absurd hi (by simp)
      · injection hi with hi
        exact hi ▸ hQ.2
    · intro i hi
      unfold dequeueIndex at hi
      split at hi
      · exact absurd hi (by simp)
      · injection hi with hi
        exact hi ▸ hQ.1
  have hr := (counter_invariant cs initQueue initQueue_inRange initQueue_counter).1
  exact ⟨⟨enqueue_inRange R d h, dequeue_inRange R o h⟩, access R h, hr,
    access (runCalls initQueue cs) hr⟩

/-- C20 witness: the invariant at `wrapQueue` (read index 510, write index 0)
and after four calls on the initial queue. -/
theorem C20_index_range_witness :
    (InRange (enqueue wrapQueue 67).2 ∧ InRange (dequeue wrapQueue 0).2.2) ∧
    ((∀ i, enqueueIndex wrapQueue = some i → i < QUEUE_SIZE) ∧
      (∀ i, dequeueIndex wrapQueue = some i → i < QUEUE_SIZE)) ∧
    ((runCalls initQueue [QueueCall.deq, QueueCall.enq 65, QueueCall.enq 66,
        QueueCall.deq]).pRD < QUEUE_SIZE ∧
      (runCalls initQueue [QueueCall.deq, QueueCall.enq 65, QueueCall.enq 66,
        QueueCall.deq]).pWR < QUEUE_SIZE) ∧
    ((∀ i, enqueueIndex (runCalls initQueue [QueueCall.deq, QueueCall.enq 65,
        QueueCall.enq 66, QueueCall.deq]) = some i → i < QUEUE_SIZE) ∧
      (∀ i, dequeueIndex (runCalls initQueue [QueueCall.deq, QueueCall.enq 65,
        QueueCall.enq 66, QueueCall.deq]) = some i → i < QUEUE_SIZE)) :=
  C20_index_range wrapQueue 67 0
    [QueueCall.deq, QueueCall.enq 65, QueueCall.enq 66, QueueCall.deq]
    (by unfold InRange; decide)

end USART2
